import Mathlib

set_option maxHeartbeats 1000000

/-!
Verification development for the batch-submission core of
`src/gallium/drivers/iris/iris_batch.c` (Mesa, iris Gallium driver).

The module is embedded shallowly: buffer objects (BOs), validation
entries and batches become Lean structures; the mutable driver state
(the BO store, the two per-engine batches, the kernel interaction) is
threaded explicitly through a `Sys` record.  Machine integers are
modelled as `Nat`/`Int`; the kernel and the allocator are modelled as
oracles carried in `Sys` (return-code stream for `execbuffer2`, outcome
stream for context cloning, an address map for fresh allocations).

`IRIS_BATCH_COUNT` is 2 in this version of the driver (render and
compute, see `batch_name_to_string`), so `Sys` carries exactly two
batches and each batch's `other_batches` set is the singleton sibling.
-/

/-- Flag values from `drm-uapi/i915_drm.h` used by iris_batch.c. -/
def EXEC_OBJECT_WRITE : Nat := 4

def EXEC_OBJECT_PINNED : Nat := 16

def EXEC_OBJECT_CAPTURE : Nat := 128

def I915_EXEC_FENCE_WAIT : Nat := 1

def I915_EXEC_FENCE_SIGNAL : Nat := 2

def I915_EXEC_NO_RELOC : Nat := 2048

def I915_EXEC_HANDLE_LUT : Nat := 4096

def I915_EXEC_BATCH_FIRST : Nat := 262144

def I915_EXEC_FENCE_ARRAY : Nat := 524288

/-- `enum pipe_reset_status`: `PIPE_GUILTY_CONTEXT_RESET`. -/
def PIPE_GUILTY_CONTEXT_RESET : Nat := 1

/-- iris_batch.c line 68: bytes reserved for the batch terminator. -/
def BATCH_RESERVED : Nat := 16

/-- `BATCH_SZ` from iris_batch.h (64 kB command region). -/
def BATCH_SZ : Nat := 65536

/-- Command dword written by `iris_finish_batch` (`0xA << 23`). -/
def MI_BATCH_BUFFER_END : Nat := 0xA <<< 23

/-- Command dword written by `iris_chain_to_new_batch`:
`(0x31 << 23) | (1 << 8) | (3 - 2)`. -/
def MI_BATCH_BUFFER_START : Nat := (0x31 <<< 23) ||| (1 <<< 8) ||| 1

/-- `errno` value `EIO`, the device-lost submission failure class. -/
def eio_code : Int := 5

/-- The C `ALIGN(v, a)` macro for a power-of-two `a`
(`(v + a - 1) & ~(a - 1)`), written arithmetically. -/
def ALIGN (v a : Nat) : Nat := ((v + a - 1) / a) * a

/-- A buffer object (`struct iris_bo`, iris_bufmgr.h).  Only the fields
iris_batch.c touches are modelled.  `index` is the cached validation
list slot (−1 when invalid); `writes` is the log of stores performed
through this BO's CPU mapping, as `(offset, byte width, value)`. -/
structure BO where
  gem_handle : Nat
  size : Nat
  gtt_offset : Nat
  kflags : Nat
  index : Int
  refcount : Nat
  idle : Bool
  writes : List (Nat × Nat × Nat)
deriving Repr, DecidableEq

/-- `struct drm_i915_gem_exec_object2`, the validation-list entry. -/
structure ExecObject2 where
  handle : Nat
  offset : Nat
  flags : Nat
deriving Repr, DecidableEq

instance : Inhabited ExecObject2 := ⟨⟨0, 0, 0⟩⟩

/-- `struct drm_i915_gem_exec_fence`: one fence descriptor passed to
the kernel at submission (wait and/or signal). -/
structure ExecFence where
  handle : Nat
  flags : Nat
deriving Repr, DecidableEq

/-- `struct iris_batch`.  `exec_bos` holds BO ids; `exec_count` is its
length; `bytes_used` is `map_next - map` (`iris_batch_bytes_used`). -/
structure Batch where
  bo : Nat
  bytes_used : Nat
  exec_bos : List Nat
  validation_list : List ExecObject2
  exec_array_size : Nat
  aperture_space : Nat
  primary_batch_size : Nat
  contains_draw : Bool
  syncpts : List Nat
  exec_fences : List ExecFence
  last_syncpt : Option Nat
  hw_ctx_id : Nat
  engine : Nat
deriving Repr, DecidableEq

/-- The `iris_screen` fields iris_batch.c reads. -/
structure Screen where
  workaround_bo : Nat
  no_hw : Bool
deriving Repr, DecidableEq

/-- The `drm_i915_gem_execbuffer2` request as built by `submit_batch`
(the fields with observable content). -/
structure Execbuf where
  buffer_count : Nat
  batch_len : Nat
  flags : Nat
  ctx_id : Nat
  fences : List ExecFence
deriving Repr, DecidableEq

/-- The whole driver-visible state: the BO store and syncpoint
refcounts (by id), the two batches, fresh-id counters, the kernel
oracles, and the logs of externally observable events (submissions
issued, reset callbacks delivered, lost-state notifications). -/
structure Sys where
  bos : Nat → BO
  syncpt_rc : Nat → Nat
  batches : Fin 2 → Batch
  next_bo : Nat
  next_syncpt : Nat
  next_ctx : Nat
  screen : Screen
  submissions : List Execbuf
  reset_events : List Nat
  reset_cb_present : Bool
  lost_state_count : Nat
  submit_rets : List Int
  clone_oks : List Bool
  alloc_gtt : Nat → Nat
  aborted : Bool

/-- Pointwise update of a store indexed by `Nat`. -/
def updFn {α : Type} (f : Nat → α) (i : Nat) (v : α) : Nat → α :=
  fun j => if j = i then v else f j

/-- Update one of the two batches. -/
def updB (f : Fin 2 → Batch) (i : Fin 2) (b : Batch) : Fin 2 → Batch :=
  fun j => if j = i then b else f j

/-- The sibling batch (`other_batches` has a single element when
`IRIS_BATCH_COUNT == 2`). -/
def otherBatch (i : Fin 2) : Fin 2 :=
  if i.val = 0 then 1 else 0

/-- Replace the element at index `i` by `f` applied to it (the in-place
amendment of `validation_list[idx]`). -/
def modifyIdx {α : Type} : List α → Nat → (α → α) → List α
  | [], _, _ => []
  | x :: xs, 0, f => f x :: xs
  | x :: xs, n+1, f => x :: modifyIdx xs n f

/-- iris_batch.c lines 249–264, `find_validation_entry`: try the BO's
cached `index` (the C reads it into an `unsigned`, so a stored −1 fails
the bound check), validating `exec_bos[index] == bo`; otherwise scan
linearly.  Returns the index into the parallel arrays. -/
def find_validation_entry (bos : Nat → BO) (batch : Batch) (boId : Nat) :
    Option Nat :=
  if 0 ≤ (bos boId).index ∧
     ((bos boId).index).toNat < batch.exec_bos.length ∧
     batch.exec_bos[((bos boId).index).toNat]? = some boId then
    some ((bos boId).index).toNat
  else
    List.findIdx? (fun x => x = boId) batch.exec_bos

/-- iris_batch.c lines 290–296: the BO is already in the validation
list; OR in `EXEC_OBJECT_WRITE` when the new use is writable. -/
def mark_entry_writable (batch : Batch) (idx : Nat) (writable : Bool) :
    Batch :=
  if writable then
    let vl := modifyIdx batch.validation_list idx
      (fun e => { e with flags := e.flags ||| EXEC_OBJECT_WRITE })
    { batch with validation_list := vl }
  else
    batch

/-- iris_batch.c lines 329–354: take a reference on the BO, grow the
parallel arrays by doubling when full (`realloc` preserves the existing
entries), append the new validation entry, cache the BO's index, and
add its size to the aperture footprint. -/
def add_bo_entry (s : Sys) (bi : Fin 2) (boId : Nat) (writable : Bool) :
    Sys :=
  let batch := s.batches bi
  let bo := s.bos boId
  let eflags := bo.kflags ||| (if writable then EXEC_OBJECT_WRITE else 0)
  let entry : ExecObject2 := { handle := bo.gem_handle, offset := bo.gtt_offset, flags := eflags }
  let bo' := { bo with refcount := bo.refcount + 1, index := (batch.exec_bos.length : Int) }
  let newsize := if batch.exec_bos.length = batch.exec_array_size then batch.exec_array_size * 2 else batch.exec_array_size
  let batch' := { batch with exec_array_size := newsize, validation_list := batch.validation_list ++ [entry], exec_bos := batch.exec_bos ++ [boId], aperture_space := batch.aperture_space + bo.size }
  { s with bos := updFn s.bos boId bo', batches := updB s.batches bi batch' }

/-- `iris_use_pinned_bo` specialised to `bo == batch->bo`: the
sibling-batch hazard scan (lines 298–327) is skipped by its
`bo != batch->bo` guard, leaving the lookup and the amend/append
paths.  This is the shape of the call `create_batch` makes. -/
def use_own_bo (s : Sys) (bi : Fin 2) (writable : Bool) : Sys :=
  let batch := s.batches bi
  let boId := batch.bo
  let w := if boId = s.screen.workaround_bo then false else writable
  match find_validation_entry s.bos batch boId with
  | some idx =>
      { s with batches := updB s.batches bi (mark_entry_writable batch idx w) }
  | none => add_bo_entry s bi boId w

/-- `iris_create_syncpt` (iris_fence.c, not part of this tree).
Modelled from the spec: a syncpoint is a reference-counted fence
object "created fresh for each Batch generation" (§3); creation yields
a fresh id holding one reference. -/
def iris_create_syncpt (s : Sys) : Sys × Nat :=
  let id := s.next_syncpt
  ({ s with next_syncpt := id + 1, syncpt_rc := updFn s.syncpt_rc id 1 }, id)

/-- `iris_syncpt_reference(screen, &dst, src)` (iris_fence, not part of
this tree).  Modelled from the spec: reference-counted assignment —
drop the reference held through `dst`, take one on `src` (§3, §4.4
"release the prior generation's intermediate fences"). -/
def syncpt_ref_assign (rc : Nat → Nat) (dst src : Option Nat) : Nat → Nat :=
  let rc1 := match dst with
    | some d => updFn rc d (rc d - 1)
    | none => rc
  match src with
  | some sp => updFn rc1 sp (rc1 sp + 1)
  | none => rc1

/-- `iris_batch_add_syncpt` (iris_fence.h, not part of this tree).
Modelled from the spec: appends a fence wait/signal descriptor
`{handle, flags}` to the batch's `exec_fences` and stores a referenced
pointer to the syncpoint in `batch->syncpts` (§3: "a list of outgoing
synchronization primitives ... and a list of fence wait/signal
descriptors to pass to the kernel"). -/
def iris_batch_add_syncpt (s : Sys) (bi : Fin 2) (sp : Nat) (flags : Nat) :
    Sys :=
  let batch := s.batches bi
  let batch' := { batch with exec_fences := batch.exec_fences ++ [{ handle := sp, flags := flags }], syncpts := batch.syncpts ++ [sp] }
  { s with batches := updB s.batches bi batch', syncpt_rc := updFn s.syncpt_rc sp (s.syncpt_rc sp + 1) }

/-- iris_batch.c lines 356–369, `create_batch`: allocate a fresh
command-buffer BO of `BATCH_SZ + BATCH_RESERVED` bytes (one reference,
address from the allocator, `EXEC_OBJECT_CAPTURE` ORed into its
kflags; iris BOs are pinned), map it (cursor to 0), and register it
via `iris_use_pinned_bo(batch, batch->bo, false)` — here `bo ==
batch->bo`, so the sibling scan is skipped (`use_own_bo`). -/
def create_batch (s : Sys) (bi : Fin 2) : Sys :=
  let id := s.next_bo
  let newbo : BO := { gem_handle := id, size := BATCH_SZ + BATCH_RESERVED, gtt_offset := s.alloc_gtt id, kflags := EXEC_OBJECT_PINNED ||| EXEC_OBJECT_CAPTURE, index := -1, refcount := 1, idle := true, writes := [] }
  let s1 := { s with next_bo := id + 1, bos := updFn s.bos id newbo }
  let batch := s1.batches bi
  let s2 := { s1 with batches := updB s1.batches bi { batch with bo := id, bytes_used := 0 } }
  use_own_bo s2 bi false

/-- iris_batch.c lines 371–389, `iris_batch_reset`: drop the batch's
own reference on its command BO, clear the chain/draw bookkeeping,
allocate and register a new command BO, then create a fresh completion
syncpoint pre-armed as a signal target (the creation reference is
dropped once it is stored on the batch). -/
def iris_batch_reset (s : Sys) (bi : Fin 2) : Sys :=
  let batch := s.batches bi
  let oldbo := s.bos batch.bo
  let s1 := { s with bos := updFn s.bos batch.bo { oldbo with refcount := oldbo.refcount - 1 } }
  let s2 := { s1 with batches := updB s1.batches bi { batch with primary_batch_size := 0, contains_draw := false } }
  let s3 := create_batch s2 bi
  let p := iris_create_syncpt s3
  let s4 := iris_batch_add_syncpt p.1 bi p.2 I915_EXEC_FENCE_SIGNAL
  { s4 with syncpt_rc := updFn s4.syncpt_rc p.2 (s4.syncpt_rc p.2 - 1) }

/-- iris_batch.c lines 464–477, `iris_finish_batch`: write
`MI_BATCH_BUFFER_END` at the cursor, advance it 4 bytes, and freeze
the primary batch size when still on the first (unchained) buffer. -/
def iris_finish_batch (s : Sys) (bi : Fin 2) : Sys :=
  let batch := s.batches bi
  let bo := s.bos batch.bo
  let bo' := { bo with writes := bo.writes ++ [(batch.bytes_used, 4, MI_BATCH_BUFFER_END)] }
  let batch1 := { batch with bytes_used := batch.bytes_used + 4 }
  let batch2 :=
    if batch1.exec_bos[0]? = some batch1.bo then
      { batch1 with primary_batch_size := batch1.bytes_used }
    else
      batch1
  { s with bos := updFn s.bos batch.bo bo', batches := updB s.batches bi batch2 }

/-- The `drm_i915_gem_execbuffer2` request built at iris_batch.c lines
555–573: validation-list count, offset 0, primary length rounded up to
QWord alignment, engine/no-reloc/batch-first/handle-LUT flags plus the
fence array when fences are present, and the context id. -/
def submit_execbuf (batch : Batch) : Execbuf :=
  let fflags := if batch.exec_fences.length ≠ 0 then I915_EXEC_FENCE_ARRAY else 0
  { buffer_count := batch.exec_bos.length, batch_len := ALIGN batch.primary_batch_size 8, flags := batch.engine ||| I915_EXEC_NO_RELOC ||| I915_EXEC_BATCH_FIRST ||| I915_EXEC_HANDLE_LUT ||| fflags, ctx_id := batch.hw_ctx_id, fences := batch.exec_fences }

/-- The per-BO cleanup at iris_batch.c lines 580–587: mark not idle,
invalidate the cached `index`, drop the validation-list reference. -/
def submit_bo_cleanup (b : BO) : BO :=
  { b with idle := false, index := -1, refcount := b.refcount - 1 }

/-- iris_batch.c lines 538–590, `submit_batch`: issue the ioctl with
the built request unless `screen->no_hw` (result from the kernel
oracle), then run the per-BO cleanup over the validation list.
Returns the ioctl result. -/
def submit_batch (s : Sys) (bi : Fin 2) : Sys × Int :=
  let batch := s.batches bi
  let s1 :=
    if s.screen.no_hw then s
    else { s with submissions := s.submissions ++ [submit_execbuf batch], submit_rets := s.submit_rets.tail }
  let ret : Int := if s.screen.no_hw then 0 else s.submit_rets.headD 0
  let bos' := batch.exec_bos.foldl (fun bs id => updFn bs id (submit_bo_cleanup (bs id))) s1.bos
  ({ s1 with bos := bos' }, ret)

/-- iris_batch.c lines 482–499, `replace_hw_ctx`: clone the hardware
context (outcome from the oracle); on success destroy the old one,
install the clone, and notify the owning context that all state was
lost (`iris_lost_context_state`). -/
def replace_hw_ctx (s : Sys) (bi : Fin 2) : Sys × Bool :=
  let ok := s.clone_oks.headD true
  let s1 := { s with clone_oks := s.clone_oks.tail }
  if ok then
    let newctx := s1.next_ctx
    let batch := s1.batches bi
    let s2 := { s1 with next_ctx := newctx + 1, batches := updB s1.batches bi { batch with hw_ctx_id := newctx }, lost_state_count := s1.lost_state_count + 1 }
    (s2, true)
  else
    (s1, false)

/-- iris_batch.c lines 612–693, `_iris_batch_flush` (the debug dumping
at lines 622–646 and 663–666 only prints and is omitted): skip when no
commands were recorded; otherwise terminate the batch, submit it,
clear the validation list and footprint, promote this generation's
completion syncpoint (`syncpts[0]`, always present in reachable
states) to `last_syncpt`, release the generation's fences, reset the
batch, and handle the submission result — `-EIO` attempts context
replacement and reports a guilty reset through the client callback
when one is registered; any remaining failure aborts the process
(modelled by the `aborted` flag).

`flush_clear` is the post-submit bookkeeping at lines 650–661: clear
the validation list (`exec_count = 0`) and footprint, promote
`syncpts[0]` to `last_syncpt`, release this generation's stored
syncpoints, and clear the fence list. -/
def flush_clear (s2 : Sys) (bi : Fin 2) : Sys :=
  let batch := s2.batches bi
  let newLast : Option Nat :=
    match batch.syncpts with
    | sp :: _ => some sp
    | [] => none
  let rc1 := syncpt_ref_assign s2.syncpt_rc batch.last_syncpt newLast
  let rc2 := batch.syncpts.foldl (fun r sp => updFn r sp (r sp - 1)) rc1
  let batch2 := { batch with exec_bos := [], validation_list := [], aperture_space := 0, last_syncpt := newLast, syncpts := [], exec_fences := [] }
  { s2 with syncpt_rc := rc2, batches := updB s2.batches bi batch2 }

/-- `_iris_batch_flush` itself (`iris_batch_flush` is the C macro
wrapper adding `__FILE__`/`__LINE__` for the debug print). -/
def iris_batch_flush (s : Sys) (bi : Fin 2) : Sys :=
  if (s.batches bi).bytes_used = 0 then
    s
  else
    let p := submit_batch (iris_finish_batch s bi) bi
    let s4 := iris_batch_reset (flush_clear p.1 bi) bi
    if p.2 = -eio_code then
      let q := replace_hw_ctx s4 bi
      if q.2 then
        if q.1.reset_cb_present then
          { q.1 with reset_events := q.1.reset_events ++ [PIPE_GUILTY_CONTEXT_RESET] }
        else
          q.1
      else
        { q.1 with aborted := true }
    else if p.2 < 0 then
      { s4 with aborted := true }
    else
      s4

/-- iris_batch.c lines 272–354, `iris_use_pinned_bo`: force the
designated workaround BO read-only; amend the existing entry in place
when the BO is already tracked; otherwise, for a BO other than the
batch's own command buffer, consult the sibling batch — if it tracks
the BO and either side writes, flush the sibling and record a wait on
its completion fence — and finally reference the BO and append its
validation entry. -/
def iris_use_pinned_bo (s : Sys) (bi : Fin 2) (boId : Nat)
    (writable : Bool) : Sys :=
  let w := if boId = s.screen.workaround_bo then false else writable
  let batch := s.batches bi
  match find_validation_entry s.bos batch boId with
  | some idx =>
      { s with batches := updB s.batches bi (mark_entry_writable batch idx w) }
  | none =>
      let s1 :=
        if boId ≠ batch.bo then
          let ob := otherBatch bi
          match find_validation_entry s.bos (s.batches ob) boId with
          | some oidx =>
              let oentry := (s.batches ob).validation_list.getD oidx default
              if oentry.flags &&& EXEC_OBJECT_WRITE ≠ 0 ∨ w then
                let s' := iris_batch_flush s ob
                iris_batch_add_syncpt s' bi
                  (((s'.batches ob).last_syncpt).getD 0) I915_EXEC_FENCE_WAIT
              else
                s
          | none => s
        else
          s
      add_bo_entry s1 bi boId w

/-- iris_batch.c lines 429–436, `iris_batch_maybe_flush`: flush when
the batch has chained (`batch->bo != batch->exec_bos[0]`) or the bytes
used plus the estimate reach `BATCH_SZ`. -/
def iris_batch_maybe_flush (s : Sys) (bi : Fin 2) (estimate : Nat) : Sys :=
  let batch := s.batches bi
  if batch.exec_bos[0]? ≠ some batch.bo ∨
     batch.bytes_used + estimate ≥ BATCH_SZ then
    iris_batch_flush s bi
  else
    s

/-- iris_batch.c lines 438–459, `iris_chain_to_new_batch`: reserve 12
bytes at the cursor, drop the `batch->bo` ownership reference (the
validation list still holds one), freeze the primary batch size
(including the 12-byte jump), allocate and switch to a continuation
buffer, then write `MI_BATCH_BUFFER_START` and the new buffer's GPU
address into the reserved bytes of the old buffer. -/
def iris_chain_to_new_batch (s : Sys) (bi : Fin 2) : Sys :=
  let batch := s.batches bi
  let oldbo := batch.bo
  let cmd_off := batch.bytes_used
  let s1 := { s with batches := updB s.batches bi { batch with bytes_used := batch.bytes_used + 12 } }
  let s2 := { s1 with bos := updFn s1.bos oldbo { s1.bos oldbo with refcount := (s1.bos oldbo).refcount - 1 } }
  let s3 := { s2 with batches := updB s2.batches bi { s2.batches bi with primary_batch_size := (s2.batches bi).bytes_used } }
  let s4 := create_batch s3 bi
  let newaddr := (s4.bos (s4.batches bi).bo).gtt_offset
  let old' := { s4.bos oldbo with writes := (s4.bos oldbo).writes ++ [(cmd_off, 4, MI_BATCH_BUFFER_START), (cmd_off + 4, 8, newaddr)] }
  { s4 with bos := updFn s4.bos oldbo old' }

/-- iris_batch.c lines 700–704, `iris_batch_references`. -/
def iris_batch_references (s : Sys) (bi : Fin 2) (boId : Nat) : Bool :=
  (find_validation_entry s.bos (s.batches bi) boId).isSome

/-- Modelled from the spec: clients append commands by writing at the
mapped cursor and advancing it (§2 control flow; `iris_get_command_space`
in iris_batch.h, not part of this tree).  Only the cursor advance is
relevant to the properties proved here. -/
def iris_record_bytes (s : Sys) (bi : Fin 2) (n : Nat) : Sys :=
  let batch := s.batches bi
  { s with batches := updB s.batches bi { batch with bytes_used := batch.bytes_used + n } }

/-! ### Concrete sample states, used to instantiate the witnesses -/

/-- A concrete data buffer object. -/
def sampleBO (id : Nat) : BO :=
  { gem_handle := id, size := 4096, gtt_offset := 4096 * (id + 1),
    kflags := EXEC_OBJECT_PINNED, index := -1, refcount := 1,
    idle := true, writes := [] }

/-- A concrete command-buffer BO (as allocated by `create_batch`). -/
def sampleCmdBO (id : Nat) : BO :=
  { gem_handle := id, size := BATCH_SZ + BATCH_RESERVED,
    gtt_offset := 4096 * (id + 1),
    kflags := EXEC_OBJECT_PINNED ||| EXEC_OBJECT_CAPTURE, index := 0,
    refcount := 2, idle := true, writes := [] }

/-- A freshly reset batch tracking its own command buffer `cmd`, with
one pre-armed signal syncpoint `sp`. -/
def sampleBatch (cmd sp ctx : Nat) : Batch :=
  { bo := cmd, bytes_used := 0,
    exec_bos := [cmd],
    validation_list := [{ handle := cmd, offset := 4096 * (cmd + 1),
                          flags := EXEC_OBJECT_PINNED ||| EXEC_OBJECT_CAPTURE }],
    exec_array_size := 100, aperture_space := BATCH_SZ + BATCH_RESERVED,
    primary_batch_size := 0, contains_draw := false,
    syncpts := [sp], exec_fences := [⟨sp, I915_EXEC_FENCE_SIGNAL⟩],
    last_syncpt := none, hw_ctx_id := ctx, engine := 1 }

/-- A concrete two-batch system: command BOs 0 and 1, a shared data BO
2, and the workaround BO 3. -/
def sampleSys : Sys :=
  { bos := fun i => if i = 0 then sampleCmdBO 0
                    else if i = 1 then sampleCmdBO 1
                    else sampleBO i,
    syncpt_rc := fun _ => 1,
    batches := fun i => if i = 0 then sampleBatch 0 0 10
                        else sampleBatch 1 1 11,
    next_bo := 4, next_syncpt := 2, next_ctx := 100,
    screen := { workaround_bo := 3, no_hw := false },
    submissions := [], reset_events := [], reset_cb_present := true,
    lost_state_count := 0, submit_rets := [], clone_oks := [],
    alloc_gtt := fun i => 4096 * (i + 1), aborted := false }

/-- A variant of the sample system whose render batch has a full
validation array (capacity 1, one tracked BO). -/
def sampleSysFull : Sys :=
  { sampleSys with batches := fun i =>
      if i = 0 then { sampleBatch 0 0 10 with exec_array_size := 1 }
      else sampleBatch 1 1 11 }

/-- All validation entries a batch holds for BO `wa` lack
`EXEC_OBJECT_WRITE` (checking the entry aligned with each `exec_bos`
slot that stores `wa`). -/
def entriesNoWrite (batch : Batch) (wa : Nat) : Prop :=
  ∀ i, i < batch.exec_bos.length → batch.exec_bos[i]? = some wa →
    (batch.validation_list.getD i default).flags &&& EXEC_OBJECT_WRITE = 0

instance (batch : Batch) (wa : Nat) : Decidable (entriesNoWrite batch wa) := by
  unfold entriesNoWrite
  exact Nat.decidableBallLT _ _

/-- The sample system with 8 bytes of commands recorded in the render
batch (so a flush is non-empty). -/
def sampleSysBusy : Sys :=
  { sampleSys with batches := fun i =>
      if i = 0 then { sampleBatch 0 0 10 with bytes_used := 8 }
      else sampleBatch 1 1 11 }

/-- The busy sample system whose next execbuffer call will return
`-EIO`, with a context clone that succeeds. -/
def sampleSysLost : Sys :=
  { sampleSysBusy with submit_rets := [-eio_code], clone_oks := [true] }

/-- Invariant maintained across repeated `use_bo` calls for the same
BO within one generation (after the first call has appended its
entry): the BO sits in the last slot of both parallel arrays, and its
entry's flags are the BO's kernel flags plus `EXEC_OBJECT_WRITE` iff
some call so far was writable (`acc`). -/
def DedupInv (t : Sys) (bi : Fin 2) (boId waId : Nat) (pre : List Nat)
    (V : List ExecObject2) (hnd off kf : Nat) (acc : Bool) : Prop :=
  (t.batches bi).exec_bos = pre ++ [boId] ∧
  (t.batches bi).validation_list =
    V ++ [{ handle := hnd, offset := off,
            flags := kf ||| (if acc then EXEC_OBJECT_WRITE else 0) }] ∧
  V.length = pre.length ∧
  t.screen.workaround_bo = waId

/-- A two-batch system in which the compute batch (index 1) has
recorded commands and tracks the shared BO 2 with a writable entry. -/
def sampleSysHazard : Sys :=
  { sampleSys with batches := fun i =>
      if i = 0 then sampleBatch 0 0 10
      else { sampleBatch 1 1 11 with
               bytes_used := 8,
               exec_bos := [1, 2],
               validation_list :=
                 [{ handle := 1, offset := 4096 * 2,
                    flags := EXEC_OBJECT_PINNED ||| EXEC_OBJECT_CAPTURE },
                  { handle := 2, offset := 4096 * 3,
                    flags := EXEC_OBJECT_PINNED ||| EXEC_OBJECT_WRITE }],
               aperture_space := BATCH_SZ + BATCH_RESERVED + 4096 } }

/-! ### Store and list helper lemmas -/

theorem updFn_same {α : Type} (f : Nat → α) (i : Nat) (v : α) :
    updFn f i v i = v := by
  simp [updFn]

theorem updFn_ne {α : Type} (f : Nat → α) (i j : Nat) (v : α) (h : j ≠ i) :
    updFn f i v j = f j := by
  simp [updFn, h]

theorem updB_same (f : Fin 2 → Batch) (i : Fin 2) (b : Batch) :
    updB f i b i = b := by
  simp [updB]

theorem updB_ne (f : Fin 2 → Batch) (i j : Fin 2) (b : Batch) (h : j ≠ i) :
    updB f i b j = f j := by
  simp [updB, h]

theorem updB_self (f : Fin 2 → Batch) (i : Fin 2) :
    updB f i (f i) = f := by
  funext j
  by_cases h : j = i <;> simp [updB, h]

theorem otherBatch_ne (i : Fin 2) : otherBatch i ≠ i := by
  fin_cases i <;> decide

theorem ne_otherBatch (i : Fin 2) : i ≠ otherBatch i := by
  fin_cases i <;> decide

theorem modifyIdx_append {α : Type} (pre : List α) (x : α) (f : α → α) :
    modifyIdx (pre ++ [x]) pre.length f = pre ++ [f x] := by
  induction pre with
  | nil => simp [modifyIdx]
  | cons a l ih => simp [modifyIdx, ih]

theorem findIdx?_append_self (pre : List Nat) (boId : Nat)
    (h : boId ∉ pre) :
    List.findIdx? (fun x => x = boId) (pre ++ [boId]) = some pre.length := by
  induction pre with
  | nil => simp [List.findIdx?]
  | cons a l ih =>
      have ha : a ≠ boId := by
        intro hcon
        exact h (by simp [hcon])
      have hl : boId ∉ l := fun hm => h (List.mem_cons_of_mem _ hm)
      simp [List.findIdx?_cons, ha, ih hl, Option.map_some]

theorem findIdx?_spec {α : Type} (p : α → Bool) :
    ∀ (l : List α) (j : Nat), List.findIdx? p l = some j →
      ∃ x, l[j]? = some x ∧ p x = true := by
  intro l
  induction l with
  | nil => intro j h; simp [List.findIdx?] at h
  | cons a t ih =>
      intro j h
      rw [List.findIdx?_cons] at h
      by_cases hp : p a
      · simp [hp] at h
        subst h
        exact ⟨a, by simp, hp⟩
      · simp [hp] at h
        obtain ⟨j', hj', rfl⟩ := h
        obtain ⟨x, hx, hpx⟩ := ih j' hj'
        exact ⟨x, by simpa using hx, hpx⟩

theorem findIdx?_none_not_mem {α : Type} [DecidableEq α] (l : List α) (a : α)
    (h : List.findIdx? (fun x => x = a) l = none) : a ∉ l := by
  rw [List.findIdx?_eq_none_iff] at h
  intro hmem
  have := h a hmem
  simp at this

theorem mem_of_getElem?_eq {α : Type} :
    ∀ (l : List α) (i : Nat) (a : α), l[i]? = some a → a ∈ l
  | [], i, a, h => by simp at h
  | x :: t, 0, a, h => by
      simp at h
      simp [h]
  | x :: t, i+1, a, h => by
      simp at h
      exact List.mem_cons_of_mem _ (mem_of_getElem?_eq t i a h)

/-! ### Lookup lemmas for `find_validation_entry` -/

theorem find_validation_entry_spec (bos : Nat → BO) (batch : Batch)
    (boId j : Nat) (h : find_validation_entry bos batch boId = some j) :
    batch.exec_bos[j]? = some boId := by
  unfold find_validation_entry at h
  split at h
  case isTrue hc =>
    injection h with h
    subst h
    exact hc.2.2
  case isFalse hc =>
    obtain ⟨x, hx, hpx⟩ := findIdx?_spec _ _ _ h
    simp at hpx
    subst hpx
    exact hx

theorem find_validation_entry_none_not_mem (bos : Nat → BO) (batch : Batch)
    (boId : Nat) (h : find_validation_entry bos batch boId = none) :
    boId ∉ batch.exec_bos := by
  unfold find_validation_entry at h
  split at h
  case isTrue hc => exact absurd h (by simp)
  case isFalse hc => exact findIdx?_none_not_mem _ _ h

theorem find_validation_entry_append (bos : Nat → BO) (batch : Batch)
    (boId : Nat) (pre : List Nat) (hnm : boId ∉ pre)
    (hsh : batch.exec_bos = pre ++ [boId]) :
    find_validation_entry bos batch boId = some pre.length := by
  unfold find_validation_entry
  split
  case isTrue hc =>
    obtain ⟨h1, h2, h3⟩ := hc
    rw [hsh] at h3 h2
    congr 1
    by_contra hne
    have hlt : ((bos boId).index).toNat < pre.length := by
      simp [List.length_append] at h2
      omega
    rw [List.getElem?_append, if_pos hlt] at h3
    exact hnm (mem_of_getElem?_eq _ _ _ h3)
  case isFalse hc =>
    rw [hsh]
    exact findIdx?_append_self pre boId hnm

/-! ### Lemmas for the per-BO cleanup fold in `submit_batch` -/

theorem fold_cleanup_not_mem (l : List Nat) (bs : Nat → BO) (a : Nat)
    (h : a ∉ l) :
    l.foldl (fun f id => updFn f id (submit_bo_cleanup (f id))) bs a = bs a := by
  induction l generalizing bs with
  | nil => rfl
  | cons x t ih =>
      have hx : a ≠ x := fun hc => h (by simp [hc])
      have ht : a ∉ t := fun hm => h (by simp [hm])
      rw [List.foldl_cons, ih _ ht, updFn_ne _ _ _ _ hx]

theorem fold_cleanup_mem (l : List Nat) (bs : Nat → BO) (a : Nat)
    (hnd : l.Nodup) (h : a ∈ l) :
    l.foldl (fun f id => updFn f id (submit_bo_cleanup (f id))) bs a
      = submit_bo_cleanup (bs a) := by
  induction l generalizing bs with
  | nil => simp at h
  | cons x t ih =>
      rcases List.mem_cons.mp h with rfl | hm
      · have ht : a ∉ t := (List.nodup_cons.mp hnd).1
        rw [List.foldl_cons, fold_cleanup_not_mem _ _ _ ht, updFn_same]
      · have hx : a ≠ x := by
          rintro rfl
          exact (List.nodup_cons.mp hnd).1 hm
        rw [List.foldl_cons, ih _ (List.nodup_cons.mp hnd).2 hm,
            updFn_ne _ _ _ _ hx]

theorem fold_cleanup_pres (l : List Nat) (bs : Nat → BO) (a : Nat) :
    ((l.foldl (fun f id => updFn f id (submit_bo_cleanup (f id))) bs) a).kflags
        = (bs a).kflags ∧
    ((l.foldl (fun f id => updFn f id (submit_bo_cleanup (f id))) bs) a).gem_handle
        = (bs a).gem_handle ∧
    ((l.foldl (fun f id => updFn f id (submit_bo_cleanup (f id))) bs) a).gtt_offset
        = (bs a).gtt_offset ∧
    ((l.foldl (fun f id => updFn f id (submit_bo_cleanup (f id))) bs) a).size
        = (bs a).size ∧
    ((l.foldl (fun f id => updFn f id (submit_bo_cleanup (f id))) bs) a).writes
        = (bs a).writes := by
  induction l generalizing bs with
  | nil => exact ⟨rfl, rfl, rfl, rfl, rfl⟩
  | cons x t ih =>
      rw [List.foldl_cons]
      obtain ⟨k1, k2, k3, k4, k5⟩ := ih (updFn bs x (submit_bo_cleanup (bs x)))
      by_cases hx : a = x
      · subst hx
        exact ⟨by rw [k1, updFn_same]; rfl,
               by rw [k2, updFn_same]; rfl,
               by rw [k3, updFn_same]; rfl,
               by rw [k4, updFn_same]; rfl,
               by rw [k5, updFn_same]; rfl⟩
      · exact ⟨by rw [k1, updFn_ne _ _ _ _ hx],
               by rw [k2, updFn_ne _ _ _ _ hx],
               by rw [k3, updFn_ne _ _ _ _ hx],
               by rw [k4, updFn_ne _ _ _ _ hx],
               by rw [k5, updFn_ne _ _ _ _ hx]⟩

/-! ### Effect and frame lemmas for the individual operations -/

theorem mark_entry_writable_false (batch : Batch) (idx : Nat) :
    mark_entry_writable batch idx false = batch := rfl

theorem mark_entry_writable_exec_bos (batch : Batch) (idx : Nat) (w : Bool) :
    (mark_entry_writable batch idx w).exec_bos = batch.exec_bos := by
  unfold mark_entry_writable
  split <;> rfl

theorem mark_entry_writable_exec_fences (batch : Batch) (idx : Nat) (w : Bool) :
    (mark_entry_writable batch idx w).exec_fences = batch.exec_fences := by
  unfold mark_entry_writable
  split <;> rfl

theorem add_bo_entry_batches_same (s : Sys) (bi : Fin 2) (b : Nat) (w : Bool) :
    (add_bo_entry s bi b w).batches bi =
      { s.batches bi with
          exec_array_size :=
            if (s.batches bi).exec_bos.length = (s.batches bi).exec_array_size
            then (s.batches bi).exec_array_size * 2
            else (s.batches bi).exec_array_size,
          validation_list := (s.batches bi).validation_list ++
            [{ handle := (s.bos b).gem_handle, offset := (s.bos b).gtt_offset,
               flags := (s.bos b).kflags |||
                 (if w then EXEC_OBJECT_WRITE else 0) }],
          exec_bos := (s.batches bi).exec_bos ++ [b],
          aperture_space := (s.batches bi).aperture_space + (s.bos b).size } := by
  simp [add_bo_entry, updB_same]

theorem add_bo_entry_batches_ne (s : Sys) (bi bj : Fin 2) (b : Nat) (w : Bool)
    (h : bj ≠ bi) :
    (add_bo_entry s bi b w).batches bj = s.batches bj := by
  simp [add_bo_entry, updB_ne _ _ _ _ h]

theorem add_bo_entry_bos_same (s : Sys) (bi : Fin 2) (b : Nat) (w : Bool) :
    (add_bo_entry s bi b w).bos b =
      { s.bos b with refcount := (s.bos b).refcount + 1,
                     index := ((s.batches bi).exec_bos.length : Int) } := by
  simp [add_bo_entry, updFn_same]

theorem add_bo_entry_bos_ne (s : Sys) (bi : Fin 2) (b c : Nat) (w : Bool)
    (h : c ≠ b) :
    (add_bo_entry s bi b w).bos c = s.bos c := by
  simp [add_bo_entry, updFn_ne _ _ _ _ h]

theorem add_bo_entry_submissions (s : Sys) (bi : Fin 2) (b : Nat) (w : Bool) :
    (add_bo_entry s bi b w).submissions = s.submissions := rfl

theorem add_bo_entry_screen (s : Sys) (bi : Fin 2) (b : Nat) (w : Bool) :
    (add_bo_entry s bi b w).screen = s.screen := rfl

theorem iris_batch_add_syncpt_batches_same (s : Sys) (bi : Fin 2)
    (sp f : Nat) :
    (iris_batch_add_syncpt s bi sp f).batches bi =
      { s.batches bi with
          exec_fences := (s.batches bi).exec_fences ++ [⟨sp, f⟩],
          syncpts := (s.batches bi).syncpts ++ [sp] } := by
  simp [iris_batch_add_syncpt, updB_same]

theorem iris_batch_add_syncpt_batches_ne (s : Sys) (bi bj : Fin 2)
    (sp f : Nat) (h : bj ≠ bi) :
    (iris_batch_add_syncpt s bi sp f).batches bj = s.batches bj := by
  simp [iris_batch_add_syncpt, updB_ne _ _ _ _ h]

theorem iris_batch_add_syncpt_bos (s : Sys) (bi : Fin 2) (sp f : Nat) :
    (iris_batch_add_syncpt s bi sp f).bos = s.bos := rfl

theorem iris_batch_add_syncpt_submissions (s : Sys) (bi : Fin 2)
    (sp f : Nat) :
    (iris_batch_add_syncpt s bi sp f).submissions = s.submissions := rfl

theorem iris_batch_add_syncpt_screen (s : Sys) (bi : Fin 2) (sp f : Nat) :
    (iris_batch_add_syncpt s bi sp f).screen = s.screen := rfl

theorem iris_finish_batch_sys_parts (s : Sys) (bi : Fin 2) :
    (iris_finish_batch s bi).submissions = s.submissions ∧
    (iris_finish_batch s bi).screen = s.screen ∧
    (iris_finish_batch s bi).submit_rets = s.submit_rets ∧
    (iris_finish_batch s bi).reset_events = s.reset_events ∧
    (iris_finish_batch s bi).aborted = s.aborted ∧
    (iris_finish_batch s bi).clone_oks = s.clone_oks ∧
    (iris_finish_batch s bi).next_bo = s.next_bo ∧
    (iris_finish_batch s bi).next_syncpt = s.next_syncpt ∧
    (iris_finish_batch s bi).next_ctx = s.next_ctx ∧
    (iris_finish_batch s bi).reset_cb_present = s.reset_cb_present ∧
    (iris_finish_batch s bi).alloc_gtt = s.alloc_gtt :=
  ⟨rfl, rfl, rfl, rfl, rfl, rfl, rfl, rfl, rfl, rfl, rfl⟩

theorem iris_finish_batch_batches_ne (s : Sys) (bi bj : Fin 2) (h : bj ≠ bi) :
    (iris_finish_batch s bi).batches bj = s.batches bj := by
  simp only [iris_finish_batch]
  exact updB_ne _ _ _ _ h

theorem iris_finish_batch_batch_parts (s : Sys) (bi : Fin 2) :
    ((iris_finish_batch s bi).batches bi).syncpts = (s.batches bi).syncpts ∧
    ((iris_finish_batch s bi).batches bi).exec_fences
        = (s.batches bi).exec_fences ∧
    ((iris_finish_batch s bi).batches bi).hw_ctx_id
        = (s.batches bi).hw_ctx_id ∧
    ((iris_finish_batch s bi).batches bi).last_syncpt
        = (s.batches bi).last_syncpt ∧
    ((iris_finish_batch s bi).batches bi).exec_bos = (s.batches bi).exec_bos ∧
    ((iris_finish_batch s bi).batches bi).bo = (s.batches bi).bo ∧
    ((iris_finish_batch s bi).batches bi).bytes_used
        = (s.batches bi).bytes_used + 4 ∧
    ((iris_finish_batch s bi).batches bi).engine = (s.batches bi).engine := by
  simp only [iris_finish_batch, updB_same]
  split <;> exact ⟨rfl, rfl, rfl, rfl, rfl, rfl, rfl, rfl⟩

theorem iris_finish_batch_primary_chained (s : Sys) (bi : Fin 2)
    (hc : ¬ ((s.batches bi).exec_bos[0]? = some (s.batches bi).bo)) :
    ((iris_finish_batch s bi).batches bi).primary_batch_size
      = (s.batches bi).primary_batch_size := by
  simp only [iris_finish_batch, updB_same]
  split
  case isTrue h => exact absurd h hc
  case isFalse h => rfl

theorem iris_finish_batch_bos_pres (s : Sys) (bi : Fin 2) (c : Nat) :
    ((iris_finish_batch s bi).bos c).kflags = (s.bos c).kflags ∧
    ((iris_finish_batch s bi).bos c).gem_handle = (s.bos c).gem_handle ∧
    ((iris_finish_batch s bi).bos c).gtt_offset = (s.bos c).gtt_offset ∧
    ((iris_finish_batch s bi).bos c).size = (s.bos c).size ∧
    ((iris_finish_batch s bi).bos c).refcount = (s.bos c).refcount ∧
    ((iris_finish_batch s bi).bos c).index = (s.bos c).index ∧
    ((iris_finish_batch s bi).bos c).idle = (s.bos c).idle := by
  simp only [iris_finish_batch]
  by_cases hc : c = (s.batches bi).bo
  · subst hc
    rw [updFn_same]
    exact ⟨rfl, rfl, rfl, rfl, rfl, rfl, rfl⟩
  · rw [updFn_ne _ _ _ _ hc]
    exact ⟨rfl, rfl, rfl, rfl, rfl, rfl, rfl⟩

theorem iris_finish_batch_bos_ne (s : Sys) (bi : Fin 2) (c : Nat)
    (hc : c ≠ (s.batches bi).bo) :
    (iris_finish_batch s bi).bos c = s.bos c := by
  simp only [iris_finish_batch]
  exact updFn_ne _ _ _ _ hc

theorem submit_batch_ret (s : Sys) (bi : Fin 2) :
    (submit_batch s bi).2
      = if s.screen.no_hw then 0 else s.submit_rets.headD 0 := rfl

theorem submit_batch_batches (s : Sys) (bi : Fin 2) :
    (submit_batch s bi).1.batches = s.batches := by
  unfold submit_batch
  split <;> rfl

theorem submit_batch_submissions (s : Sys) (bi : Fin 2) :
    (submit_batch s bi).1.submissions
      = if s.screen.no_hw then s.submissions
        else s.submissions ++ [submit_execbuf (s.batches bi)] := by
  unfold submit_batch
  split
  case isTrue h => simp [h]
  case isFalse h => simp [h]

theorem submit_batch_bos (s : Sys) (bi : Fin 2) :
    (submit_batch s bi).1.bos
      = (s.batches bi).exec_bos.foldl
          (fun f id => updFn f id (submit_bo_cleanup (f id))) s.bos := by
  unfold submit_batch
  split <;> rfl

theorem submit_batch_sys_parts (s : Sys) (bi : Fin 2) :
    (submit_batch s bi).1.screen = s.screen ∧
    (submit_batch s bi).1.reset_events = s.reset_events ∧
    (submit_batch s bi).1.aborted = s.aborted ∧
    (submit_batch s bi).1.clone_oks = s.clone_oks ∧
    (submit_batch s bi).1.next_bo = s.next_bo ∧
    (submit_batch s bi).1.next_syncpt = s.next_syncpt ∧
    (submit_batch s bi).1.next_ctx = s.next_ctx ∧
    (submit_batch s bi).1.reset_cb_present = s.reset_cb_present ∧
    (submit_batch s bi).1.alloc_gtt = s.alloc_gtt := by
  unfold submit_batch
  split <;> exact ⟨rfl, rfl, rfl, rfl, rfl, rfl, rfl, rfl, rfl⟩

theorem iris_batch_reset_batch_eq (s : Sys) (bi : Fin 2)
    (h : (s.batches bi).exec_bos = []) :
    (iris_batch_reset s bi).batches bi = { s.batches bi with
      bo := s.next_bo,
      bytes_used := 0,
      primary_batch_size := 0,
      contains_draw := false,
      exec_bos := [s.next_bo],
      validation_list := (s.batches bi).validation_list ++
        [{ handle := s.next_bo, offset := s.alloc_gtt s.next_bo,
           flags := EXEC_OBJECT_PINNED ||| EXEC_OBJECT_CAPTURE }],
      exec_array_size :=
        if 0 = (s.batches bi).exec_array_size
        then (s.batches bi).exec_array_size * 2
        else (s.batches bi).exec_array_size,
      aperture_space := (s.batches bi).aperture_space +
        (BATCH_SZ + BATCH_RESERVED),
      syncpts := (s.batches bi).syncpts ++ [s.next_syncpt],
      exec_fences := (s.batches bi).exec_fences ++
        [⟨s.next_syncpt, I915_EXEC_FENCE_SIGNAL⟩] } := by
  simp [iris_batch_reset, create_batch, use_own_bo, add_bo_entry,
        iris_batch_add_syncpt, iris_create_syncpt, find_validation_entry,
        updB_same, updFn_same, h]

theorem use_own_bo_batches_ne (s : Sys) (bi bj : Fin 2) (w : Bool)
    (hj : bj ≠ bi) :
    (use_own_bo s bi w).batches bj = s.batches bj := by
  simp only [use_own_bo]
  split
  · simp [updB_ne _ _ _ _ hj]
  · exact add_bo_entry_batches_ne _ _ _ _ _ hj

theorem create_batch_batches_ne (s : Sys) (bi bj : Fin 2) (hj : bj ≠ bi) :
    (create_batch s bi).batches bj = s.batches bj := by
  unfold create_batch
  rw [use_own_bo_batches_ne _ _ _ _ hj]
  simp [updB_ne _ _ _ _ hj]

theorem iris_batch_reset_batches_ne (s : Sys) (bi bj : Fin 2)
    (hj : bj ≠ bi) :
    (iris_batch_reset s bi).batches bj = s.batches bj := by
  unfold iris_batch_reset iris_create_syncpt
  simp [iris_batch_add_syncpt_batches_ne _ _ _ _ _ hj,
        create_batch_batches_ne _ _ _ hj, updB_ne _ _ _ _ hj]

theorem iris_batch_reset_bos_new (s : Sys) (bi : Fin 2)
    (h : (s.batches bi).exec_bos = []) :
    (iris_batch_reset s bi).bos s.next_bo =
      { gem_handle := s.next_bo, size := BATCH_SZ + BATCH_RESERVED,
        gtt_offset := s.alloc_gtt s.next_bo,
        kflags := EXEC_OBJECT_PINNED ||| EXEC_OBJECT_CAPTURE,
        index := 0, refcount := 2, idle := true, writes := [] } := by
  simp [iris_batch_reset, create_batch, use_own_bo, add_bo_entry,
        iris_batch_add_syncpt, iris_create_syncpt, find_validation_entry,
        updB_same, updFn_same, h]

theorem iris_batch_reset_bos_old (s : Sys) (bi : Fin 2)
    (h : (s.batches bi).exec_bos = [])
    (hbo : (s.batches bi).bo ≠ s.next_bo) :
    (iris_batch_reset s bi).bos ((s.batches bi).bo) =
      { s.bos ((s.batches bi).bo) with
          refcount := (s.bos ((s.batches bi).bo)).refcount - 1 } := by
  simp [iris_batch_reset, create_batch, use_own_bo, add_bo_entry,
        iris_batch_add_syncpt, iris_create_syncpt, find_validation_entry,
        updB_same, updFn_same, updFn_ne _ _ _ _ hbo, h]

theorem iris_batch_reset_bos_other (s : Sys) (bi : Fin 2) (c : Nat)
    (h : (s.batches bi).exec_bos = [])
    (hc1 : c ≠ (s.batches bi).bo) (hc2 : c ≠ s.next_bo) :
    (iris_batch_reset s bi).bos c = s.bos c := by
  simp [iris_batch_reset, create_batch, use_own_bo, add_bo_entry,
        iris_batch_add_syncpt, iris_create_syncpt, find_validation_entry,
        updB_same, updFn_ne _ _ _ _ hc1, updFn_ne _ _ _ _ hc2, h]

theorem iris_batch_reset_sys_parts (s : Sys) (bi : Fin 2)
    (h : (s.batches bi).exec_bos = []) :
    (iris_batch_reset s bi).submissions = s.submissions ∧
    (iris_batch_reset s bi).screen = s.screen ∧
    (iris_batch_reset s bi).submit_rets = s.submit_rets ∧
    (iris_batch_reset s bi).reset_events = s.reset_events ∧
    (iris_batch_reset s bi).aborted = s.aborted ∧
    (iris_batch_reset s bi).clone_oks = s.clone_oks ∧
    (iris_batch_reset s bi).next_ctx = s.next_ctx ∧
    (iris_batch_reset s bi).reset_cb_present = s.reset_cb_present ∧
    (iris_batch_reset s bi).next_bo = s.next_bo + 1 ∧
    (iris_batch_reset s bi).alloc_gtt = s.alloc_gtt := by
  simp [iris_batch_reset, create_batch, use_own_bo, add_bo_entry,
        iris_batch_add_syncpt, iris_create_syncpt, find_validation_entry,
        updB_same, updFn_same, h]

theorem flush_clear_batches_same (s : Sys) (bi : Fin 2) :
    (flush_clear s bi).batches bi =
      { s.batches bi with
          exec_bos := [], validation_list := [], aperture_space := 0,
          last_syncpt :=
            match (s.batches bi).syncpts with
            | sp :: _ => some sp
            | [] => none,
          syncpts := [], exec_fences := [] } := by
  simp [flush_clear, updB_same]

theorem flush_clear_batches_ne (s : Sys) (bi bj : Fin 2) (hj : bj ≠ bi) :
    (flush_clear s bi).batches bj = s.batches bj := by
  simp [flush_clear, updB_ne _ _ _ _ hj]

theorem flush_clear_bos (s : Sys) (bi : Fin 2) :
    (flush_clear s bi).bos = s.bos := rfl

theorem flush_clear_sys_parts (s : Sys) (bi : Fin 2) :
    (flush_clear s bi).submissions = s.submissions ∧
    (flush_clear s bi).screen = s.screen ∧
    (flush_clear s bi).submit_rets = s.submit_rets ∧
    (flush_clear s bi).reset_events = s.reset_events ∧
    (flush_clear s bi).aborted = s.aborted ∧
    (flush_clear s bi).clone_oks = s.clone_oks ∧
    (flush_clear s bi).next_bo = s.next_bo ∧
    (flush_clear s bi).next_syncpt = s.next_syncpt ∧
    (flush_clear s bi).next_ctx = s.next_ctx ∧
    (flush_clear s bi).reset_cb_present = s.reset_cb_present ∧
    (flush_clear s bi).alloc_gtt = s.alloc_gtt :=
  ⟨rfl, rfl, rfl, rfl, rfl, rfl, rfl, rfl, rfl, rfl, rfl⟩

theorem replace_hw_ctx_ok (s : Sys) (bi : Fin 2)
    (h : s.clone_oks.headD true = true) :
    replace_hw_ctx s bi =
      ({ s with clone_oks := s.clone_oks.tail,
                next_ctx := s.next_ctx + 1,
                batches := updB s.batches bi
                  { s.batches bi with hw_ctx_id := s.next_ctx },
                lost_state_count := s.lost_state_count + 1 }, true) := by
  have h' : s.clone_oks.head?.getD true = true := by
    rw [← List.headD_eq_head?]
    exact h
  simp [replace_hw_ctx, h']

theorem replace_hw_ctx_fail (s : Sys) (bi : Fin 2)
    (h : s.clone_oks.headD true = false) :
    replace_hw_ctx s bi = ({ s with clone_oks := s.clone_oks.tail }, false) := by
  have h' : s.clone_oks.head?.getD true = false := by
    rw [← List.headD_eq_head?]
    exact h
  simp [replace_hw_ctx, h']

theorem flush_ret_zero (s : Sys) (bi : Fin 2) (hrets : s.submit_rets = []) :
    (submit_batch (iris_finish_batch s bi) bi).2 = 0 := by
  rw [submit_batch_ret]
  have h1 : (iris_finish_batch s bi).submit_rets = [] := by
    rw [(iris_finish_batch_sys_parts s bi).2.2.1, hrets]
  have h2 : (iris_finish_batch s bi).screen = s.screen :=
    (iris_finish_batch_sys_parts s bi).2.1
  rw [h1, h2]
  cases s.screen.no_hw <;> simp

theorem iris_batch_flush_eq_reset (s : Sys) (bi : Fin 2)
    (hne : ¬ ((s.batches bi).bytes_used = 0)) (hrets : s.submit_rets = []) :
    iris_batch_flush s bi =
      iris_batch_reset
        (flush_clear (submit_batch (iris_finish_batch s bi) bi).1 bi) bi := by
  simp only [iris_batch_flush, if_neg hne, flush_ret_zero s bi hrets]
  norm_num [eio_code]

theorem iris_batch_flush_post (s : Sys) (bi : Fin 2)
    (hne : ¬ ((s.batches bi).bytes_used = 0))
    (hrets : s.submit_rets = [])
    (hnd : (s.batches bi).exec_bos.Nodup)
    (hlt : ∀ b ∈ (s.batches bi).exec_bos, b < s.next_bo) :
    ((iris_batch_flush s bi).batches bi).exec_bos = [s.next_bo] ∧
    ((iris_batch_flush s bi).batches bi).bo = s.next_bo ∧
    ((iris_batch_flush s bi).batches bi).validation_list =
      [{ handle := s.next_bo, offset := s.alloc_gtt s.next_bo,
         flags := EXEC_OBJECT_PINNED ||| EXEC_OBJECT_CAPTURE }] ∧
    ((iris_batch_flush s bi).batches bi).aperture_space
        = BATCH_SZ + BATCH_RESERVED ∧
    ((iris_batch_flush s bi).batches bi).bytes_used = 0 ∧
    (∀ b ∈ (s.batches bi).exec_bos,
        ((iris_batch_flush s bi).bos b).index = -1) ∧
    (∀ b ∈ (s.batches bi).exec_bos,
        ((iris_batch_flush s bi).bos b).idle = false) ∧
    (∀ b ∈ (s.batches bi).exec_bos, b ≠ (s.batches bi).bo →
        ((iris_batch_flush s bi).bos b).refcount = (s.bos b).refcount - 1) ∧
    ((s.batches bi).bo ∈ (s.batches bi).exec_bos →
        ((iris_batch_flush s bi).bos ((s.batches bi).bo)).refcount
          = (s.bos ((s.batches bi).bo)).refcount - 2) := by
  rw [iris_batch_flush_eq_reset s bi hne hrets]
  have f1 := iris_finish_batch_batch_parts s bi
  have fsys := iris_finish_batch_sys_parts s bi
  have fpres := fun c => iris_finish_batch_bos_pres s bi c
  set s1 := iris_finish_batch s bi with hs1
  have ssys := submit_batch_sys_parts s1 bi
  have sbat : (submit_batch s1 bi).1.batches = s1.batches :=
    submit_batch_batches s1 bi
  have sbos : (submit_batch s1 bi).1.bos
      = (s1.batches bi).exec_bos.foldl
          (fun f id => updFn f id (submit_bo_cleanup (f id))) s1.bos :=
    submit_batch_bos s1 bi
  set s2 := (submit_batch s1 bi).1 with hs2
  have csys := flush_clear_sys_parts s2 bi
  have cbat := flush_clear_batches_same s2 bi
  have cbos : (flush_clear s2 bi).bos = s2.bos := flush_clear_bos s2 bi
  set s3 := flush_clear s2 bi with hs3
  -- transported projections
  have h3 : (s3.batches bi).exec_bos = [] := by rw [cbat]
  have hnb : s3.next_bo = s.next_bo := by
    rw [csys.2.2.2.2.2.2.1, hs2, ssys.2.2.2.2.1, fsys.2.2.2.2.2.2.1]
  have hga : s3.alloc_gtt = s.alloc_gtt := by
    rw [csys.2.2.2.2.2.2.2.2.2.2, hs2, ssys.2.2.2.2.2.2.2.2,
        fsys.2.2.2.2.2.2.2.2.2.2]
  have hbo3 : (s3.batches bi).bo = (s.batches bi).bo := by
    rw [cbat]
    show (s2.batches bi).bo = (s.batches bi).bo
    rw [hs2, sbat, f1.2.2.2.2.2.1]
  have hap3 : (s3.batches bi).aperture_space = 0 := by rw [cbat]
  have hvl3 : (s3.batches bi).validation_list = [] := by rw [cbat]
  have hbosmem : ∀ b ∈ (s.batches bi).exec_bos,
      s3.bos b = submit_bo_cleanup (s1.bos b) := by
    intro b hb
    rw [hs3, cbos, hs2, sbos, f1.2.2.2.2.1]
    exact fold_cleanup_mem _ _ _ hnd hb
  have hrc1 : ∀ b, (s1.bos b).refcount = (s.bos b).refcount :=
    fun b => (fpres b).2.2.2.2.1
  have hbatch := iris_batch_reset_batch_eq s3 bi h3
  refine ⟨?_, ?_, ?_, ?_, ?_, ?_, ?_, ?_, ?_⟩
  · rw [hbatch]
    simp [hnb]
  · rw [hbatch]
    simp [hnb]
  · rw [hbatch]
    simp [hnb, hga, hvl3]
  · rw [hbatch]
    simp [hap3]
  · rw [hbatch]
  · intro b hb
    have hb2 : b ≠ s3.next_bo := by
      rw [hnb]
      exact Nat.ne_of_lt (hlt b hb)
    by_cases hc : b = (s.batches bi).bo
    · subst hc
      have := iris_batch_reset_bos_old s3 bi h3 (hbo3 ▸ hb2)
      rw [hbo3] at this
      rw [this, hbosmem _ hb]
      rfl
    · have := iris_batch_reset_bos_other s3 bi b h3 (hbo3 ▸ hc) hb2
      rw [this, hbosmem _ hb]
      rfl
  · intro b hb
    have hb2 : b ≠ s3.next_bo := by
      rw [hnb]
      exact Nat.ne_of_lt (hlt b hb)
    by_cases hc : b = (s.batches bi).bo
    · subst hc
      have := iris_batch_reset_bos_old s3 bi h3 (hbo3 ▸ hb2)
      rw [hbo3] at this
      rw [this, hbosmem _ hb]
      rfl
    · have := iris_batch_reset_bos_other s3 bi b h3 (hbo3 ▸ hc) hb2
      rw [this, hbosmem _ hb]
      rfl
  · intro b hb hbne
    have hb2 : b ≠ s3.next_bo := by
      rw [hnb]
      exact Nat.ne_of_lt (hlt b hb)
    have := iris_batch_reset_bos_other s3 bi b h3 (hbo3 ▸ hbne) hb2
    rw [this, hbosmem _ hb]
    show (s1.bos b).refcount - 1 = (s.bos b).refcount - 1
    rw [hrc1]
  · intro hmem
    have hb2 : (s.batches bi).bo ≠ s3.next_bo := by
      rw [hnb]
      exact Nat.ne_of_lt (hlt _ hmem)
    have := iris_batch_reset_bos_old s3 bi h3 (hbo3 ▸ hb2)
    rw [hbo3] at this
    rw [this, hbosmem _ hmem]
    show (submit_bo_cleanup (s1.bos ((s.batches bi).bo))).refcount - 1
        = (s.bos ((s.batches bi).bo)).refcount - 2
    show (s1.bos ((s.batches bi).bo)).refcount - 1 - 1
        = (s.bos ((s.batches bi).bo)).refcount - 2
    rw [hrc1]
    omega

theorem replace_hw_ctx_bos (s : Sys) (bi : Fin 2) :
    (replace_hw_ctx s bi).1.bos = s.bos := by
  simp only [replace_hw_ctx]
  split <;> rfl

theorem replace_hw_ctx_batches_ne (s : Sys) (bi bj : Fin 2) (hj : bj ≠ bi) :
    (replace_hw_ctx s bi).1.batches bj = s.batches bj := by
  simp only [replace_hw_ctx]
  split
  · simp [updB_ne _ _ _ _ hj]
  · rfl

theorem replace_hw_ctx_screen (s : Sys) (bi : Fin 2) :
    (replace_hw_ctx s bi).1.screen = s.screen := by
  simp only [replace_hw_ctx]
  split <;> rfl

theorem replace_hw_ctx_submissions (s : Sys) (bi : Fin 2) :
    (replace_hw_ctx s bi).1.submissions = s.submissions := by
  simp only [replace_hw_ctx]
  split <;> rfl

theorem iris_batch_flush_bos_nonempty (s : Sys) (ob : Fin 2)
    (hne : ¬ ((s.batches ob).bytes_used = 0)) :
    (iris_batch_flush s ob).bos =
      (iris_batch_reset
        (flush_clear (submit_batch (iris_finish_batch s ob) ob).1 ob) ob).bos := by
  simp only [iris_batch_flush, if_neg hne]
  split
  · split
    · split <;> simp [replace_hw_ctx_bos]
    · simp [replace_hw_ctx_bos]
  · split <;> rfl

theorem iris_batch_flush_batches_ne (s : Sys) (ob bj : Fin 2)
    (hj : bj ≠ ob) :
    (iris_batch_flush s ob).batches bj = s.batches bj := by
  by_cases hne : (s.batches ob).bytes_used = 0
  · simp only [iris_batch_flush, if_pos hne]
  · simp only [iris_batch_flush, if_neg hne]
    have hr := iris_batch_reset_batches_ne
      (flush_clear (submit_batch (iris_finish_batch s ob) ob).1 ob) ob bj hj
    have hc := flush_clear_batches_ne
      (submit_batch (iris_finish_batch s ob) ob).1 ob bj hj
    have hsb : (submit_batch (iris_finish_batch s ob) ob).1.batches
        = (iris_finish_batch s ob).batches := submit_batch_batches _ _
    have hf := iris_finish_batch_batches_ne s ob bj hj
    split
    · split
      · split <;>
          simp [replace_hw_ctx_batches_ne _ _ _ hj, hr, hc, hsb, hf]
      · simp [replace_hw_ctx_batches_ne _ _ _ hj, hr, hc, hsb, hf]
    · split <;> simp [hr, hc, hsb, hf]

theorem iris_batch_flush_screen (s : Sys) (ob : Fin 2) :
    (iris_batch_flush s ob).screen = s.screen := by
  by_cases hne : (s.batches ob).bytes_used = 0
  · simp only [iris_batch_flush, if_pos hne]
  · simp only [iris_batch_flush, if_neg hne]
    have h3 : ((flush_clear (submit_batch (iris_finish_batch s ob) ob).1
        ob).batches ob).exec_bos = [] := by
      rw [flush_clear_batches_same]
    have hr := (iris_batch_reset_sys_parts
      (flush_clear (submit_batch (iris_finish_batch s ob) ob).1 ob) ob h3).2.1
    have hc := (flush_clear_sys_parts
      (submit_batch (iris_finish_batch s ob) ob).1 ob).2.1
    have hsb := (submit_batch_sys_parts (iris_finish_batch s ob) ob).1
    have hf := (iris_finish_batch_sys_parts s ob).2.1
    split
    · split
      · split <;> simp [replace_hw_ctx_screen, hr, hc, hsb, hf]
      · simp [replace_hw_ctx_screen, hr, hc, hsb, hf]
    · split <;> simp [hr, hc, hsb, hf]

theorem iris_batch_flush_bos_fields (s : Sys) (ob : Fin 2) (b : Nat)
    (hb : b ≠ s.next_bo) :
    ((iris_batch_flush s ob).bos b).kflags = (s.bos b).kflags ∧
    ((iris_batch_flush s ob).bos b).gem_handle = (s.bos b).gem_handle ∧
    ((iris_batch_flush s ob).bos b).gtt_offset = (s.bos b).gtt_offset ∧
    ((iris_batch_flush s ob).bos b).size = (s.bos b).size := by
  by_cases hne : (s.batches ob).bytes_used = 0
  · simp [iris_batch_flush, if_pos hne]
  · rw [iris_batch_flush_bos_nonempty s ob hne]
    have fsys := iris_finish_batch_sys_parts s ob
    have fpres := iris_finish_batch_bos_pres s ob b
    set s1 := iris_finish_batch s ob with hs1
    have ssys := submit_batch_sys_parts s1 ob
    have sbos := submit_batch_bos s1 ob
    set s2 := (submit_batch s1 ob).1 with hs2
    have csys := flush_clear_sys_parts s2 ob
    have cbat := flush_clear_batches_same s2 ob
    have cbos := flush_clear_bos s2 ob
    set s3 := flush_clear s2 ob with hs3
    have h3 : (s3.batches ob).exec_bos = [] := by rw [cbat]
    have hnb : s3.next_bo = s.next_bo := by
      rw [csys.2.2.2.2.2.2.1, hs2, ssys.2.2.2.2.1, fsys.2.2.2.2.2.2.1]
    have hb3 : b ≠ s3.next_bo := by rw [hnb]; exact hb
    have hfold := fold_cleanup_pres (s1.batches ob).exec_bos s1.bos b
    have hs3b : (s3.bos b).kflags = (s.bos b).kflags ∧
        (s3.bos b).gem_handle = (s.bos b).gem_handle ∧
        (s3.bos b).gtt_offset = (s.bos b).gtt_offset ∧
        (s3.bos b).size = (s.bos b).size := by
      rw [hs3, cbos, hs2, sbos]
      exact ⟨hfold.1.trans fpres.1,
             hfold.2.1.trans fpres.2.1,
             hfold.2.2.1.trans fpres.2.2.1,
             hfold.2.2.2.1.trans fpres.2.2.2.1⟩
    by_cases hc : b = (s3.batches ob).bo
    · subst hc
      rw [iris_batch_reset_bos_old s3 ob h3 hb3]
      exact hs3b
    · rw [iris_batch_reset_bos_other s3 ob b h3 hc hb3]
      exact hs3b

theorem iris_batch_flush_bos_writes (s : Sys) (ob : Fin 2) (b : Nat)
    (hb1 : b ≠ s.next_bo) (hb2 : b ≠ (s.batches ob).bo) :
    ((iris_batch_flush s ob).bos b).writes = (s.bos b).writes := by
  by_cases hne : (s.batches ob).bytes_used = 0
  · simp only [iris_batch_flush, if_pos hne]
  · rw [iris_batch_flush_bos_nonempty s ob hne]
    have fsys := iris_finish_batch_sys_parts s ob
    have f1 := iris_finish_batch_batch_parts s ob
    set s1 := iris_finish_batch s ob with hs1
    have ssys := submit_batch_sys_parts s1 ob
    have sbos := submit_batch_bos s1 ob
    have sbat := submit_batch_batches s1 ob
    set s2 := (submit_batch s1 ob).1 with hs2
    have csys := flush_clear_sys_parts s2 ob
    have cbat := flush_clear_batches_same s2 ob
    have cbos := flush_clear_bos s2 ob
    set s3 := flush_clear s2 ob with hs3
    have h3 : (s3.batches ob).exec_bos = [] := by rw [cbat]
    have hnb : s3.next_bo = s.next_bo := by
      rw [csys.2.2.2.2.2.2.1, hs2, ssys.2.2.2.2.1, fsys.2.2.2.2.2.2.1]
    have hb3 : b ≠ s3.next_bo := by rw [hnb]; exact hb1
    have hbo3 : (s3.batches ob).bo = (s.batches ob).bo := by
      rw [cbat]
      show (s2.batches ob).bo = (s.batches ob).bo
      rw [hs2, sbat, f1.2.2.2.2.2.1]
    have hfold := fold_cleanup_pres (s1.batches ob).exec_bos s1.bos b
    have hfin : (s1.bos b).writes = (s.bos b).writes := by
      rw [hs1, iris_finish_batch_bos_ne s ob b hb2]
    have hs3b : (s3.bos b).writes = (s.bos b).writes := by
      rw [hs3, cbos, hs2, sbos]
      exact hfold.2.2.2.2.trans hfin
    rw [iris_batch_reset_bos_other s3 ob b h3 (hbo3 ▸ hb2) hb3]
    exact hs3b

theorem iris_batch_flush_submission (s : Sys) (bi : Fin 2)
    (hne : ¬ ((s.batches bi).bytes_used = 0))
    (hrets : s.submit_rets = [])
    (hnohw : s.screen.no_hw = false) :
    (iris_batch_flush s bi).submissions =
      s.submissions ++
        [submit_execbuf ((iris_finish_batch s bi).batches bi)] := by
  rw [iris_batch_flush_eq_reset s bi hne hrets]
  have h3 : ((flush_clear (submit_batch (iris_finish_batch s bi) bi).1
      bi).batches bi).exec_bos = [] := by
    rw [flush_clear_batches_same]
  rw [(iris_batch_reset_sys_parts _ bi h3).1,
      (flush_clear_sys_parts _ bi).1, submit_batch_submissions]
  have hn : (iris_finish_batch s bi).screen.no_hw = false := by
    rw [(iris_finish_batch_sys_parts s bi).2.1]
    exact hnohw
  rw [if_neg (by rw [hn]; exact Bool.false_ne_true),
      (iris_finish_batch_sys_parts s bi).1]

theorem iris_batch_flush_effect (s : Sys) (ob : Fin 2) (sp : Nat)
    (rest : List Nat)
    (hne : ¬ ((s.batches ob).bytes_used = 0))
    (hrets : s.submit_rets = [])
    (hsp : (s.batches ob).syncpts = sp :: rest) :
    ((iris_batch_flush s ob).batches ob).last_syncpt = some sp ∧
    ((iris_batch_flush s ob).batches ob).bytes_used = 0 ∧
    (iris_batch_flush s ob).aborted = s.aborted := by
  rw [iris_batch_flush_eq_reset s ob hne hrets]
  have f1 := iris_finish_batch_batch_parts s ob
  have fsys := iris_finish_batch_sys_parts s ob
  set s1 := iris_finish_batch s ob with hs1
  have sbat := submit_batch_batches s1 ob
  have ssys := submit_batch_sys_parts s1 ob
  set s2 := (submit_batch s1 ob).1 with hs2
  have cbat := flush_clear_batches_same s2 ob
  have csys := flush_clear_sys_parts s2 ob
  set s3 := flush_clear s2 ob with hs3
  have h3 : (s3.batches ob).exec_bos = [] := by rw [cbat]
  have hsp2 : (s2.batches ob).syncpts = sp :: rest := by
    rw [hs2, sbat, f1.1, hsp]
  have hls : (s3.batches ob).last_syncpt = some sp := by
    rw [cbat]
    show (match (s2.batches ob).syncpts with
          | sp :: _ => some sp
          | [] => none) = some sp
    rw [hsp2]
  have hbatch := iris_batch_reset_batch_eq s3 ob h3
  refine ⟨?_, ?_, ?_⟩
  · rw [hbatch]
    show (s3.batches ob).last_syncpt = some sp
    exact hls
  · rw [hbatch]
  · rw [(iris_batch_reset_sys_parts s3 ob h3).2.2.2.2.1, csys.2.2.2.2.1,
        ssys.2.2.1, fsys.2.2.2.2.1]

/-! ### Decomposition of `iris_use_pinned_bo` on the new-BO path -/

theorem use_bo_none_split (s : Sys) (bi : Fin 2) (boId : Nat) (w : Bool)
    (hnew : find_validation_entry s.bos (s.batches bi) boId = none) :
    ∃ s1 : Sys,
      iris_use_pinned_bo s bi boId w =
        add_bo_entry s1 bi boId
          (if boId = s.screen.workaround_bo then false else w) ∧
      (s1.batches bi).exec_bos = (s.batches bi).exec_bos ∧
      (s1.batches bi).validation_list = (s.batches bi).validation_list ∧
      (s1.batches bi).exec_array_size = (s.batches bi).exec_array_size ∧
      (s1.batches bi).aperture_space = (s.batches bi).aperture_space ∧
      s1.screen = s.screen ∧
      (boId ≠ s.next_bo →
        (s1.bos boId).kflags = (s.bos boId).kflags ∧
        (s1.bos boId).gem_handle = (s.bos boId).gem_handle ∧
        (s1.bos boId).gtt_offset = (s.bos boId).gtt_offset ∧
        (s1.bos boId).size = (s.bos boId).size) := by
  by_cases hbo : boId = (s.batches bi).bo
  · refine ⟨s, ?_, rfl, rfl, rfl, rfl, rfl, fun _ => ⟨rfl, rfl, rfl, rfl⟩⟩
    subst hbo
    simp only [iris_use_pinned_bo, hnew]
    rw [if_neg (fun hc : ¬ _ = _ => hc rfl)]
  · have hbo' : boId ≠ (s.batches bi).bo := hbo
    cases hf : find_validation_entry s.bos (s.batches (otherBatch bi)) boId
        with
    | none =>
        refine ⟨s, ?_, rfl, rfl, rfl, rfl, rfl,
                fun _ => ⟨rfl, rfl, rfl, rfl⟩⟩
        simp only [iris_use_pinned_bo, hnew, hf]
        rw [if_pos hbo']
    | some oidx =>
        by_cases hw :
            ((s.batches (otherBatch bi)).validation_list.getD oidx
              default).flags &&& EXEC_OBJECT_WRITE ≠ 0 ∨
            (if boId = s.screen.workaround_bo then false else w) = true
        · refine ⟨iris_batch_add_syncpt (iris_batch_flush s (otherBatch bi))
              bi ((((iris_batch_flush s (otherBatch bi)).batches
                (otherBatch bi)).last_syncpt).getD 0) I915_EXEC_FENCE_WAIT,
              ?_, ?_, ?_, ?_, ?_, ?_, ?_⟩
          · simp only [iris_use_pinned_bo, hnew, hf]
            rw [if_pos hbo', if_pos hw]
          · rw [iris_batch_add_syncpt_batches_same]
            show ((iris_batch_flush s (otherBatch bi)).batches bi).exec_bos
                = (s.batches bi).exec_bos
            rw [iris_batch_flush_batches_ne _ _ _ (ne_otherBatch bi)]
          · rw [iris_batch_add_syncpt_batches_same]
            show ((iris_batch_flush s (otherBatch bi)).batches
                bi).validation_list = (s.batches bi).validation_list
            rw [iris_batch_flush_batches_ne _ _ _ (ne_otherBatch bi)]
          · rw [iris_batch_add_syncpt_batches_same]
            show ((iris_batch_flush s (otherBatch bi)).batches
                bi).exec_array_size = (s.batches bi).exec_array_size
            rw [iris_batch_flush_batches_ne _ _ _ (ne_otherBatch bi)]
          · rw [iris_batch_add_syncpt_batches_same]
            show ((iris_batch_flush s (otherBatch bi)).batches
                bi).aperture_space = (s.batches bi).aperture_space
            rw [iris_batch_flush_batches_ne _ _ _ (ne_otherBatch bi)]
          · rw [iris_batch_add_syncpt_screen, iris_batch_flush_screen]
          · intro hfresh
            rw [iris_batch_add_syncpt_bos]
            exact iris_batch_flush_bos_fields s (otherBatch bi) boId hfresh
        · refine ⟨s, ?_, rfl, rfl, rfl, rfl, rfl,
                  fun _ => ⟨rfl, rfl, rfl, rfl⟩⟩
          simp only [iris_use_pinned_bo, hnew, hf]
          rw [if_pos hbo', if_neg hw]

theorem use_bo_found (s : Sys) (bi : Fin 2) (boId : Nat) (w : Bool)
    (idx : Nat)
    (hfound : find_validation_entry s.bos (s.batches bi) boId = some idx) :
    iris_use_pinned_bo s bi boId w =
      { s with batches := (updB s.batches bi
          (mark_entry_writable (s.batches bi) idx
            (if boId = s.screen.workaround_bo then false else w))) } := by
  simp only [iris_use_pinned_bo, hfound]

/-! ### The claims -/

/-- C4: calling `_iris_batch_flush` on a batch in which no commands
have been recorded since the last reset (`iris_batch_bytes_used == 0`,
that is, the write cursor is at the start of the command region)
returns the state completely unchanged: no kernel submission is
issued, and `last_syncpt`, `exec_count` and all other batch state are
untouched. -/
theorem C4_empty_flush_noop (s : Sys) (bi : Fin 2)
    (h : (s.batches bi).bytes_used = 0) :
    iris_batch_flush s bi = s := by
  simp [iris_batch_flush, h]

theorem C4_empty_flush_noop_witness :
    (sampleSys.batches 0).bytes_used = 0 ∧
    iris_batch_flush sampleSys 0 = sampleSys :=
  ⟨rfl, C4_empty_flush_noop sampleSys 0 rfl⟩

/-- C9: `iris_batch_maybe_flush batch estimate` invokes the flush if
and only if the batch has chained (its current command-buffer BO
differs from `exec_bos[0]`) or the bytes used so far plus the estimate
reach `BATCH_SZ`; otherwise it leaves the state unchanged. -/
theorem C9_maybe_flush_iff (s : Sys) (bi : Fin 2) (estimate : Nat) :
    (((s.batches bi).exec_bos[0]? ≠ some (s.batches bi).bo ∨
      (s.batches bi).bytes_used + estimate ≥ BATCH_SZ) →
        iris_batch_maybe_flush s bi estimate = iris_batch_flush s bi) ∧
    (¬ ((s.batches bi).exec_bos[0]? ≠ some (s.batches bi).bo ∨
        (s.batches bi).bytes_used + estimate ≥ BATCH_SZ) →
        iris_batch_maybe_flush s bi estimate = s) := by
  constructor <;> intro h
  · simp only [iris_batch_maybe_flush]
    rw [if_pos h]
  · simp only [iris_batch_maybe_flush]
    rw [if_neg h]

theorem C9_maybe_flush_iff_witness :
    ¬ ((sampleSys.batches 0).exec_bos[0]? ≠ some (sampleSys.batches 0).bo ∨
       (sampleSys.batches 0).bytes_used + 16 ≥ BATCH_SZ) ∧
    iris_batch_maybe_flush sampleSys 0 16 = sampleSys :=
  ⟨by decide, (C9_maybe_flush_iff sampleSys 0 16).2 (by decide)⟩

/-- C8: when `iris_use_pinned_bo` registers a BO that is not yet
tracked, the parallel arrays are grown by doubling exactly when they
are full, and every previously registered entry — the BO id in
`exec_bos[i]` and the whole validation entry (handle, address, flags,
including `EXEC_OBJECT_WRITE`) in `validation_list[i]` — is preserved
unchanged across the reallocation, while the new entry is appended. -/
theorem C8_growth_preserves (s : Sys) (bi : Fin 2) (boId : Nat) (w : Bool)
    (hnew : find_validation_entry s.bos (s.batches bi) boId = none)
    (hlen : (s.batches bi).validation_list.length
        = (s.batches bi).exec_bos.length) :
    ((s.batches bi).exec_bos.length = (s.batches bi).exec_array_size →
       ((iris_use_pinned_bo s bi boId w).batches bi).exec_array_size
         = 2 * (s.batches bi).exec_array_size) ∧
    ((s.batches bi).exec_bos.length ≠ (s.batches bi).exec_array_size →
       ((iris_use_pinned_bo s bi boId w).batches bi).exec_array_size
         = (s.batches bi).exec_array_size) ∧
    (∀ i, i < (s.batches bi).exec_bos.length →
       ((iris_use_pinned_bo s bi boId w).batches bi).exec_bos[i]?
           = (s.batches bi).exec_bos[i]? ∧
       ((iris_use_pinned_bo s bi boId w).batches bi).validation_list[i]?
           = (s.batches bi).validation_list[i]?) ∧
    ((iris_use_pinned_bo s bi boId w).batches bi).exec_bos.length
        = (s.batches bi).exec_bos.length + 1 := by
  obtain ⟨s1, heq, he, hv, hsz, hap, hscr, hbos⟩ :=
    use_bo_none_split s bi boId w hnew
  rw [heq, add_bo_entry_batches_same]
  refine ⟨?_, ?_, ?_, ?_⟩
  · intro hfull
    show (if (s1.batches bi).exec_bos.length = (s1.batches bi).exec_array_size
          then (s1.batches bi).exec_array_size * 2
          else (s1.batches bi).exec_array_size)
        = 2 * (s.batches bi).exec_array_size
    rw [he, hsz, if_pos hfull]
    omega
  · intro hnotfull
    show (if (s1.batches bi).exec_bos.length = (s1.batches bi).exec_array_size
          then (s1.batches bi).exec_array_size * 2
          else (s1.batches bi).exec_array_size)
        = (s.batches bi).exec_array_size
    rw [he, hsz, if_neg hnotfull]
  · intro i hi
    constructor
    · show ((s1.batches bi).exec_bos ++ [boId])[i]?
          = (s.batches bi).exec_bos[i]?
      rw [he, List.getElem?_append, if_pos hi]
    · show ((s1.batches bi).validation_list ++ [_])[i]?
          = (s.batches bi).validation_list[i]?
      rw [hv, List.getElem?_append, if_pos (by omega : i < (s.batches bi).validation_list.length)]
  · show ((s1.batches bi).exec_bos ++ [boId]).length
        = (s.batches bi).exec_bos.length + 1
    rw [he]
    simp

theorem C8_growth_preserves_witness :
    find_validation_entry sampleSysFull.bos (sampleSysFull.batches 0) 2
        = none ∧
    (sampleSysFull.batches 0).validation_list.length
        = (sampleSysFull.batches 0).exec_bos.length ∧
    (sampleSysFull.batches 0).exec_bos.length
        = (sampleSysFull.batches 0).exec_array_size ∧
    ((iris_use_pinned_bo sampleSysFull 0 2 true).batches 0).exec_array_size
        = 2 * (sampleSysFull.batches 0).exec_array_size ∧
    ((iris_use_pinned_bo sampleSysFull 0 2 true).batches 0).exec_bos[0]?
        = (sampleSysFull.batches 0).exec_bos[0]? ∧
    ((iris_use_pinned_bo sampleSysFull 0 2 true).batches 0).validation_list[0]?
        = (sampleSysFull.batches 0).validation_list[0]? :=
  ⟨by decide, by decide, by decide,
   (C8_growth_preserves sampleSysFull 0 2 true (by decide) (by decide)).1
     (by decide),
   ((C8_growth_preserves sampleSysFull 0 2 true (by decide)
       (by decide)).2.2.1 0 (by decide)).1,
   ((C8_growth_preserves sampleSysFull 0 2 true (by decide)
       (by decide)).2.2.1 0 (by decide)).2⟩

theorem entriesNoWrite_append (eb : List Nat) (vl : List ExecObject2)
    (wa b : Nat) (e : ExecObject2) (hlen : vl.length = eb.length)
    (h : ∀ i, i < eb.length → eb[i]? = some wa →
      (vl.getD i default).flags &&& EXEC_OBJECT_WRITE = 0)
    (he : e.flags &&& EXEC_OBJECT_WRITE = 0) :
    ∀ i, i < (eb ++ [b]).length → (eb ++ [b])[i]? = some wa →
      ((vl ++ [e]).getD i default).flags &&& EXEC_OBJECT_WRITE = 0 := by
  intro i hi hiwa
  rw [List.getD_eq_getElem?_getD, List.getElem?_append]
  by_cases hlt : i < eb.length
  · rw [if_pos (by omega : i < vl.length)]
    have h0 := h i hlt (by rwa [List.getElem?_append, if_pos hlt] at hiwa)
    rwa [List.getD_eq_getElem?_getD] at h0
  · have hieq : i = eb.length := by
      simp [List.length_append] at hi
      omega
    rw [if_neg (by omega)]
    have h0 : i - vl.length = 0 := by omega
    rw [h0]
    simpa using he

theorem add_wa_effects (s : Sys) (bi : Fin 2)
    (hkf : (s.bos s.screen.workaround_bo).kflags &&& EXEC_OBJECT_WRITE = 0)
    (hself : entriesNoWrite (s.batches bi) s.screen.workaround_bo)
    (hlen : (s.batches bi).validation_list.length
        = (s.batches bi).exec_bos.length) :
    (add_bo_entry s bi s.screen.workaround_bo false).submissions
        = s.submissions ∧
    (add_bo_entry s bi s.screen.workaround_bo false).batches (otherBatch bi)
        = s.batches (otherBatch bi) ∧
    ((add_bo_entry s bi s.screen.workaround_bo false).batches bi).exec_fences
        = (s.batches bi).exec_fences ∧
    entriesNoWrite
      ((add_bo_entry s bi s.screen.workaround_bo false).batches bi)
      s.screen.workaround_bo := by
  refine ⟨add_bo_entry_submissions _ _ _ _,
          add_bo_entry_batches_ne _ _ _ _ _ (otherBatch_ne bi), ?_, ?_⟩
  · rw [add_bo_entry_batches_same]
  · rw [add_bo_entry_batches_same]
    have he : ((s.bos s.screen.workaround_bo).kflags |||
        (if false then EXEC_OBJECT_WRITE else 0)) &&& EXEC_OBJECT_WRITE
          = 0 := by
      simpa using hkf
    intro i hi hiwa
    exact entriesNoWrite_append (s.batches bi).exec_bos
      (s.batches bi).validation_list s.screen.workaround_bo
      s.screen.workaround_bo _ hlen hself he i hi hiwa

/-- C6: `iris_use_pinned_bo(batch, workaround_bo, w)` — even with
`w = true` — never produces a validation entry for the workaround BO
carrying `EXEC_OBJECT_WRITE` (the request is forced read-only), and
registering the workaround BO never triggers a hazard flush of the
sibling batch nor records a wait fence: the sibling batch, the
submission log and the batch's fence list are untouched.  The
hypotheses are the invariants the driver maintains: the workaround
BO's kernel flags carry no write bit, no existing entry for it is
writable, and the parallel arrays have equal length. -/
theorem C6_workaround_exemption (s : Sys) (bi : Fin 2) (w : Bool)
    (hkf : (s.bos s.screen.workaround_bo).kflags &&& EXEC_OBJECT_WRITE = 0)
    (hself : entriesNoWrite (s.batches bi) s.screen.workaround_bo)
    (hsib : entriesNoWrite (s.batches (otherBatch bi))
        s.screen.workaround_bo)
    (hlen : (s.batches bi).validation_list.length
        = (s.batches bi).exec_bos.length) :
    (iris_use_pinned_bo s bi s.screen.workaround_bo w).submissions
        = s.submissions ∧
    (iris_use_pinned_bo s bi s.screen.workaround_bo w).batches
        (otherBatch bi) = s.batches (otherBatch bi) ∧
    ((iris_use_pinned_bo s bi s.screen.workaround_bo w).batches
        bi).exec_fences = (s.batches bi).exec_fences ∧
    entriesNoWrite
      ((iris_use_pinned_bo s bi s.screen.workaround_bo w).batches bi)
      s.screen.workaround_bo := by
  cases hfind : find_validation_entry s.bos (s.batches bi)
      s.screen.workaround_bo with
  | some idx =>
      rw [use_bo_found s bi s.screen.workaround_bo w idx hfind, if_pos rfl,
          mark_entry_writable_false, updB_self]
      exact ⟨rfl, rfl, rfl, hself⟩
  | none =>
      by_cases hbo : s.screen.workaround_bo = (s.batches bi).bo
      · have heq : iris_use_pinned_bo s bi s.screen.workaround_bo w
            = add_bo_entry s bi s.screen.workaround_bo false := by
          simp only [iris_use_pinned_bo, hfind, if_true]
          rw [if_neg (fun hc : ¬ _ = _ => hc hbo)]
        rw [heq]
        exact add_wa_effects s bi hkf hself hlen
      · cases hf : find_validation_entry s.bos (s.batches (otherBatch bi))
            s.screen.workaround_bo with
        | none =>
            have heq : iris_use_pinned_bo s bi s.screen.workaround_bo w
                = add_bo_entry s bi s.screen.workaround_bo false := by
              simp only [iris_use_pinned_bo, hfind, hf, if_true, ite_self]
            rw [heq]
            exact add_wa_effects s bi hkf hself hlen
        | some oidx =>
            have hspec := find_validation_entry_spec _ _ _ _ hf
            have hbound : oidx < (s.batches (otherBatch bi)).exec_bos.length := by
              by_contra hge
              rw [List.getElem?_eq_none (by omega)] at hspec
              exact Option.noConfusion hspec
            have hnw := hsib oidx hbound hspec
            have hcond : ¬ (((s.batches (otherBatch bi)).validation_list.getD
                oidx default).flags &&& EXEC_OBJECT_WRITE ≠ 0 ∨
                false = true) := by
              rw [List.getD_eq_getElem?_getD] at hnw
              simp [hnw]
            have heq : iris_use_pinned_bo s bi s.screen.workaround_bo w
                = add_bo_entry s bi s.screen.workaround_bo false := by
              simp only [iris_use_pinned_bo, hfind, hf, if_true]
              rw [if_pos (hbo : _ ≠ _), if_neg hcond]
            rw [heq]
            exact add_wa_effects s bi hkf hself hlen

theorem C6_workaround_exemption_witness :
    (sampleSys.bos sampleSys.screen.workaround_bo).kflags &&&
        EXEC_OBJECT_WRITE = 0 ∧
    entriesNoWrite (sampleSys.batches 0) sampleSys.screen.workaround_bo ∧
    ((iris_use_pinned_bo sampleSys 0 sampleSys.screen.workaround_bo
        true).submissions = sampleSys.submissions ∧
     (iris_use_pinned_bo sampleSys 0 sampleSys.screen.workaround_bo
        true).batches (otherBatch 0) = sampleSys.batches (otherBatch 0) ∧
     ((iris_use_pinned_bo sampleSys 0 sampleSys.screen.workaround_bo
        true).batches 0).exec_fences = (sampleSys.batches 0).exec_fences ∧
     entriesNoWrite
       ((iris_use_pinned_bo sampleSys 0 sampleSys.screen.workaround_bo
          true).batches 0) sampleSys.screen.workaround_bo) :=
  ⟨by decide, by decide,
   C6_workaround_exemption sampleSys 0 true (by decide) (by decide)
     (by decide) (by decide)⟩

/-- C10: after a non-empty flush, every BO that was on the flushed
batch's validation list has its cached `index` field set to −1 by
`submit_batch`'s cleanup loop, and consequently a
`find_validation_entry` lookup for such a BO against any batch never
accepts the cached index (the `0 ≤ index` bound check fails): the
lookup is exactly the linear scan. -/
theorem C10_index_invalidated (s : Sys) (bi : Fin 2)
    (hne : ¬ ((s.batches bi).bytes_used = 0))
    (hrets : s.submit_rets = [])
    (hnd : (s.batches bi).exec_bos.Nodup)
    (hlt : ∀ b ∈ (s.batches bi).exec_bos, b < s.next_bo) :
    ∀ b ∈ (s.batches bi).exec_bos,
      ((iris_batch_flush s bi).bos b).index = -1 ∧
      ∀ batch : Batch,
        find_validation_entry (iris_batch_flush s bi).bos batch b
          = List.findIdx? (fun x => x = b) batch.exec_bos := by
  intro b hb
  have post := iris_batch_flush_post s bi hne hrets hnd hlt
  have hidx := post.2.2.2.2.2.1 b hb
  refine ⟨hidx, fun batch => ?_⟩
  unfold find_validation_entry
  have hcond : ¬ (0 ≤ ((iris_batch_flush s bi).bos b).index ∧
      (((iris_batch_flush s bi).bos b).index).toNat < batch.exec_bos.length ∧
      batch.exec_bos[(((iris_batch_flush s bi).bos b).index).toNat]?
        = some b) := by
    rw [hidx]
    rintro ⟨h1, -, -⟩
    norm_num at h1
  rw [if_neg hcond]

theorem C10_index_invalidated_witness :
    ¬ ((sampleSysBusy.batches 0).bytes_used = 0) ∧
    ((iris_batch_flush sampleSysBusy 0).bos 0).index = -1 ∧
    find_validation_entry (iris_batch_flush sampleSysBusy 0).bos
        (sampleBatch 0 0 10) 0
      = List.findIdx? (fun x => x = 0) (sampleBatch 0 0 10).exec_bos :=
  ⟨by decide,
   ((C10_index_invalidated sampleSysBusy 0 (by decide) (by decide)
       (by decide) (by decide)) 0 (by decide)).1,
   ((C10_index_invalidated sampleSysBusy 0 (by decide) (by decide)
       (by decide) (by decide)) 0 (by decide)).2 (sampleBatch 0 0 10)⟩

/-- C3 counterexample: after a non-empty flush completes, the batch is
already reset — the new command-buffer BO has been re-registered, so
`exec_count` is 1 (not 0) and the aperture footprint equals the new
command buffer's size (not 0). -/
theorem C3_counterexample :
    ¬ ((sampleSysBusy.batches 0).bytes_used = 0) ∧
    ((iris_batch_flush sampleSysBusy 0).batches 0).exec_bos.length ≠ 0 ∧
    ((iris_batch_flush sampleSysBusy 0).batches 0).aperture_space ≠ 0 :=
  ⟨by decide, by decide, by decide⟩

/-- C3 (amended): after every non-empty flush, the batch holds exactly
one validation entry — the newly allocated command-buffer BO, at index
0 — the aperture footprint equals that BO's size, every BO tracked
before the flush has its reference count decremented by one, and the
command-buffer BO itself is decremented once more (its ownership
reference is also released).  `exec_count` is 0 only transiently,
between the submission and the reset. -/
theorem C3_reset_transparency (s : Sys) (bi : Fin 2)
    (hne : ¬ ((s.batches bi).bytes_used = 0))
    (hrets : s.submit_rets = [])
    (hnd : (s.batches bi).exec_bos.Nodup)
    (hlt : ∀ b ∈ (s.batches bi).exec_bos, b < s.next_bo) :
    ((iris_batch_flush s bi).batches bi).exec_bos
        = [((iris_batch_flush s bi).batches bi).bo] ∧
    ((iris_batch_flush s bi).batches bi).bo = s.next_bo ∧
    ((iris_batch_flush s bi).batches bi).aperture_space
        = BATCH_SZ + BATCH_RESERVED ∧
    (∀ b ∈ (s.batches bi).exec_bos, b ≠ (s.batches bi).bo →
        ((iris_batch_flush s bi).bos b).refcount = (s.bos b).refcount - 1) ∧
    ((s.batches bi).bo ∈ (s.batches bi).exec_bos →
        ((iris_batch_flush s bi).bos ((s.batches bi).bo)).refcount
          = (s.bos ((s.batches bi).bo)).refcount - 2) := by
  have post := iris_batch_flush_post s bi hne hrets hnd hlt
  refine ⟨?_, post.2.1, post.2.2.2.1, post.2.2.2.2.2.2.2.1,
          post.2.2.2.2.2.2.2.2⟩
  rw [post.1, post.2.1]

theorem C3_reset_transparency_witness :
    ¬ ((sampleSysBusy.batches 0).bytes_used = 0) ∧
    ((iris_batch_flush sampleSysBusy 0).batches 0).exec_bos
        = [((iris_batch_flush sampleSysBusy 0).batches 0).bo] ∧
    ((iris_batch_flush sampleSysBusy 0).batches 0).bo
        = sampleSysBusy.next_bo ∧
    ((iris_batch_flush sampleSysBusy 0).batches 0).aperture_space
        = BATCH_SZ + BATCH_RESERVED ∧
    (sampleSysBusy.batches 0).bo ∈ (sampleSysBusy.batches 0).exec_bos ∧
    ((iris_batch_flush sampleSysBusy 0).bos
        ((sampleSysBusy.batches 0).bo)).refcount
      = (sampleSysBusy.bos ((sampleSysBusy.batches 0).bo)).refcount - 2 :=
  ⟨by decide,
   (C3_reset_transparency sampleSysBusy 0 (by decide) (by decide)
      (by decide) (by decide)).1,
   (C3_reset_transparency sampleSysBusy 0 (by decide) (by decide)
      (by decide) (by decide)).2.1,
   (C3_reset_transparency sampleSysBusy 0 (by decide) (by decide)
      (by decide) (by decide)).2.2.1,
   by decide,
   (C3_reset_transparency sampleSysBusy 0 (by decide) (by decide)
      (by decide) (by decide)).2.2.2.2 (by decide)⟩

/-- C5: when the `execbuffer2` submission issued by a non-empty flush
returns `-EIO` (device loss), the flush replaces the hardware context
— on success the registered client reset callback is invoked with
`PIPE_GUILTY_CONTEXT_RESET`, the batch carries a fresh context id, and
the flush returns normally (not aborted).  If context replacement
fails, or the submission fails with any error other than `-EIO`, the
flush aborts the process. -/
theorem C5_device_loss_handling (s : Sys) (bi : Fin 2) (r : Int)
    (hne : ¬ ((s.batches bi).bytes_used = 0))
    (hnohw : s.screen.no_hw = false)
    (hr : s.submit_rets = [r])
    (hcb : s.reset_cb_present = true)
    (hab : s.aborted = false) :
    (r = -eio_code → s.clone_oks.headD true = true →
       (iris_batch_flush s bi).aborted = false ∧
       (iris_batch_flush s bi).reset_events
         = s.reset_events ++ [PIPE_GUILTY_CONTEXT_RESET] ∧
       ((iris_batch_flush s bi).batches bi).hw_ctx_id = s.next_ctx) ∧
    (r = -eio_code → s.clone_oks.headD true = false →
       (iris_batch_flush s bi).aborted = true) ∧
    (r < 0 → r ≠ -eio_code →
       (iris_batch_flush s bi).aborted = true) := by
  simp only [iris_batch_flush, if_neg hne]
  have fsys := iris_finish_batch_sys_parts s bi
  set s1 := iris_finish_batch s bi with hs1
  have ssys := submit_batch_sys_parts s1 bi
  set s2 := (submit_batch s1 bi).1 with hs2
  have csys := flush_clear_sys_parts s2 bi
  have h3 : ((flush_clear s2 bi).batches bi).exec_bos = [] := by
    rw [flush_clear_batches_same]
  set s3 := flush_clear s2 bi with hs3
  have rsys := iris_batch_reset_sys_parts s3 bi h3
  set s4 := iris_batch_reset s3 bi with hs4
  have hret : (submit_batch s1 bi).2 = r := by
    rw [submit_batch_ret, fsys.2.1, fsys.2.2.1, hnohw, hr]
    simp
  have hclone4 : s4.clone_oks = s.clone_oks := by
    rw [rsys.2.2.2.2.2.1, csys.2.2.2.2.2.1, hs2, ssys.2.2.2.1,
        fsys.2.2.2.2.2.1]
  have hcb4 : s4.reset_cb_present = s.reset_cb_present := by
    rw [rsys.2.2.2.2.2.2.2.1, csys.2.2.2.2.2.2.2.2.2.1, hs2,
        ssys.2.2.2.2.2.2.2.1, fsys.2.2.2.2.2.2.2.2.2.1]
  have hab4 : s4.aborted = s.aborted := by
    rw [rsys.2.2.2.2.1, csys.2.2.2.2.1, hs2, ssys.2.2.1, fsys.2.2.2.2.1]
  have hre4 : s4.reset_events = s.reset_events := by
    rw [rsys.2.2.2.1, csys.2.2.2.1, hs2, ssys.2.1, fsys.2.2.2.1]
  have hctx4 : s4.next_ctx = s.next_ctx := by
    rw [rsys.2.2.2.2.2.2.1, csys.2.2.2.2.2.2.2.2.1, hs2,
        ssys.2.2.2.2.2.2.1, fsys.2.2.2.2.2.2.2.2.1]
  rw [hret]
  refine ⟨?_, ?_, ?_⟩
  · intro ha hclone
    rw [if_pos ha]
    have hok := replace_hw_ctx_ok s4 bi (by rw [hclone4]; exact hclone)
    rw [hok]
    simp only [if_true]
    rw [if_pos (by show s4.reset_cb_present = true; rw [hcb4, hcb])]
    refine ⟨?_, ?_, ?_⟩
    · show s4.aborted = false
      rw [hab4, hab]
    · show s4.reset_events ++ [PIPE_GUILTY_CONTEXT_RESET]
          = s.reset_events ++ [PIPE_GUILTY_CONTEXT_RESET]
      rw [hre4]
    · show (updB s4.batches bi { s4.batches bi with hw_ctx_id := s4.next_ctx }
          bi).hw_ctx_id = s.next_ctx
      rw [updB_same]
      exact hctx4
  · intro ha hclone
    rw [if_pos ha]
    have hfail := replace_hw_ctx_fail s4 bi (by rw [hclone4]; exact hclone)
    rw [hfail]
    simp
  · intro hneg hnio
    rw [if_neg hnio, if_pos hneg]

theorem find_not_mem_none (bos : Nat → BO) (batch : Batch) (boId : Nat)
    (h : boId ∉ batch.exec_bos) :
    find_validation_entry bos batch boId = none := by
  have hc : ¬ (0 ≤ (bos boId).index ∧
      ((bos boId).index).toNat < batch.exec_bos.length ∧
      batch.exec_bos[((bos boId).index).toNat]? = some boId) := by
    rintro ⟨-, -, h3⟩
    exact h (mem_of_getElem?_eq _ _ _ h3)
  unfold find_validation_entry
  rw [if_neg hc, List.findIdx?_eq_none_iff]
  intro x hx
  have hne : ¬ (x = boId) := fun he => h (he ▸ hx)
  simpa using hne

theorem iris_chain_effect (s : Sys) (bi : Fin 2)
    (hbo : (s.batches bi).bo ≠ s.next_bo)
    (hnm : s.next_bo ∉ (s.batches bi).exec_bos) :
    ((iris_chain_to_new_batch s bi).batches bi).bo = s.next_bo ∧
    ((iris_chain_to_new_batch s bi).batches bi).bytes_used = 0 ∧
    ((iris_chain_to_new_batch s bi).batches bi).primary_batch_size
      = (s.batches bi).bytes_used + 12 ∧
    ((iris_chain_to_new_batch s bi).batches bi).exec_bos
      = (s.batches bi).exec_bos ++ [s.next_bo] ∧
    ((iris_chain_to_new_batch s bi).bos ((s.batches bi).bo)).writes
      = (s.bos ((s.batches bi).bo)).writes ++
        [((s.batches bi).bytes_used, 4, MI_BATCH_BUFFER_START),
         ((s.batches bi).bytes_used + 4, 8, s.alloc_gtt s.next_bo)] ∧
    ((iris_chain_to_new_batch s bi).bos s.next_bo).gtt_offset
      = s.alloc_gtt s.next_bo ∧
    (iris_chain_to_new_batch s bi).submissions = s.submissions ∧
    (iris_chain_to_new_batch s bi).screen = s.screen ∧
    (iris_chain_to_new_batch s bi).submit_rets = s.submit_rets ∧
    (iris_chain_to_new_batch s bi).next_bo = s.next_bo + 1 := by
  have hscan : List.findIdx? (fun x => x = s.next_bo)
      (s.batches bi).exec_bos = none := by
    rw [List.findIdx?_eq_none_iff]
    intro x hx
    have hne : ¬ (x = s.next_bo) := fun he => hnm (he ▸ hx)
    simpa using hne
  simp [iris_chain_to_new_batch, create_batch, use_own_bo, add_bo_entry,
        find_validation_entry, hscan, updB_same, updFn_same,
        updFn_ne _ _ _ _ hbo, updFn_ne _ _ _ _ (Ne.symm hbo)]

theorem iris_record_bytes_batches_same (s : Sys) (bi : Fin 2) (n : Nat) :
    (iris_record_bytes s bi n).batches bi =
      { s.batches bi with bytes_used := (s.batches bi).bytes_used + n } := by
  simp [iris_record_bytes, updB_same]

theorem iris_record_bytes_parts (s : Sys) (bi : Fin 2) (n : Nat) :
    (iris_record_bytes s bi n).submissions = s.submissions ∧
    (iris_record_bytes s bi n).screen = s.screen ∧
    (iris_record_bytes s bi n).submit_rets = s.submit_rets ∧
    (iris_record_bytes s bi n).next_bo = s.next_bo ∧
    (iris_record_bytes s bi n).bos = s.bos :=
  ⟨rfl, rfl, rfl, rfl, rfl⟩

/-- C7: after chaining once and then flushing, the submission's
`batch_len` is the primary (first-chunk) size — the bytes recorded
before the chain plus the 12-byte jump — rounded up to 8-byte
alignment, excluding everything recorded in the continuation chunk;
and the jump written at the end of the first chunk is an
`MI_BATCH_BUFFER_START` whose 8-byte operand equals the continuation
chunk's GPU virtual address. -/
theorem C7_chaining (s : Sys) (bi : Fin 2) (n : Nat)
    (h0 : (s.batches bi).exec_bos[0]? = some (s.batches bi).bo)
    (hlt : ∀ b ∈ (s.batches bi).exec_bos, b < s.next_bo)
    (hrets : s.submit_rets = [])
    (hnohw : s.screen.no_hw = false)
    (hn : n ≠ 0) :
    (∃ e : Execbuf,
       (iris_batch_flush (iris_record_bytes (iris_chain_to_new_batch s bi)
          bi n) bi).submissions = s.submissions ++ [e] ∧
       e.batch_len = ALIGN ((s.batches bi).bytes_used + 12) 8) ∧
    ((iris_chain_to_new_batch s bi).batches bi).bo = s.next_bo ∧
    ((iris_batch_flush (iris_record_bytes (iris_chain_to_new_batch s bi)
        bi n) bi).bos ((s.batches bi).bo)).writes
      = (s.bos ((s.batches bi).bo)).writes ++
        [((s.batches bi).bytes_used, 4, MI_BATCH_BUFFER_START),
         ((s.batches bi).bytes_used + 4, 8,
          ((iris_chain_to_new_batch s bi).bos
            (((iris_chain_to_new_batch s bi).batches bi).bo)).gtt_offset)] := by
  have hmem : (s.batches bi).bo ∈ (s.batches bi).exec_bos :=
    mem_of_getElem?_eq _ _ _ h0
  have hbo : (s.batches bi).bo ≠ s.next_bo :=
    Nat.ne_of_lt (hlt _ hmem)
  have hnm : s.next_bo ∉ (s.batches bi).exec_bos := by
    intro hin
    exact absurd rfl (Nat.ne_of_lt (hlt _ hin))
  obtain ⟨c_bo, c_bytes, c_primary, c_bos, c_writes, c_gtt, c_subm,
          c_scr, c_rets, c_next⟩ := iris_chain_effect s bi hbo hnm
  set s1 := iris_chain_to_new_batch s bi with hs1
  have rb := iris_record_bytes_batches_same s1 bi n
  have rp := iris_record_bytes_parts s1 bi n
  set s2 := iris_record_bytes s1 bi n with hs2
  have h2bytes : (s2.batches bi).bytes_used = n := by
    rw [rb]
    show (s1.batches bi).bytes_used + n = n
    rw [c_bytes]
    omega
  have hne2 : ¬ ((s2.batches bi).bytes_used = 0) := by
    rw [h2bytes]
    exact hn
  have hrets2 : s2.submit_rets = [] := by rw [rp.2.2.1, c_rets, hrets]
  have hnohw2 : s2.screen.no_hw = false := by rw [rp.2.1, c_scr, hnohw]
  have h2bo : (s2.batches bi).bo = s.next_bo := by
    rw [rb]
    show (s1.batches bi).bo = s.next_bo
    exact c_bo
  have h2eb : (s2.batches bi).exec_bos
      = (s.batches bi).exec_bos ++ [s.next_bo] := by
    rw [rb]
    show (s1.batches bi).exec_bos = _
    exact c_bos
  have h2primary : (s2.batches bi).primary_batch_size
      = (s.batches bi).bytes_used + 12 := by
    rw [rb]
    show (s1.batches bi).primary_batch_size = _
    exact c_primary
  have hlen0 : 0 < (s.batches bi).exec_bos.length := by
    by_contra hc
    rw [List.getElem?_eq_none (by omega)] at h0
    exact Option.noConfusion h0
  have hchained : ¬ ((s2.batches bi).exec_bos[0]?
      = some (s2.batches bi).bo) := by
    rw [h2eb, h2bo, List.getElem?_append, if_pos hlen0, h0]
    intro hc
    injection hc with hc
    exact hbo hc
  refine ⟨?_, c_bo, ?_⟩
  · refine ⟨submit_execbuf ((iris_finish_batch s2 bi).batches bi), ?_, ?_⟩
    · rw [iris_batch_flush_submission s2 bi hne2 hrets2 hnohw2,
          rp.1, c_subm]
    · show ALIGN ((iris_finish_batch s2 bi).batches bi).primary_batch_size 8
          = ALIGN ((s.batches bi).bytes_used + 12) 8
      rw [iris_finish_batch_primary_chained s2 bi hchained, h2primary]
  · have hw1 : (s.batches bi).bo ≠ s2.next_bo := by
      rw [rp.2.2.2.1, c_next]
      have := hlt _ hmem
      omega
    have hw2 : (s.batches bi).bo ≠ (s2.batches bi).bo := by
      rw [h2bo]
      exact hbo
    rw [iris_batch_flush_bos_writes s2 bi ((s.batches bi).bo) hw1 hw2]
    have : s2.bos = s1.bos := rp.2.2.2.2
    rw [this, c_writes, c_bo, c_gtt]

theorem C7_chaining_witness :
    (sampleSysBusy.batches 0).exec_bos[0]?
        = some (sampleSysBusy.batches 0).bo ∧
    (∃ e : Execbuf,
       (iris_batch_flush (iris_record_bytes
          (iris_chain_to_new_batch sampleSysBusy 0) 0 4) 0).submissions
         = sampleSysBusy.submissions ++ [e] ∧
       e.batch_len = ALIGN ((sampleSysBusy.batches 0).bytes_used + 12) 8) ∧
    ((iris_chain_to_new_batch sampleSysBusy 0).batches 0).bo
        = sampleSysBusy.next_bo ∧
    ((iris_batch_flush (iris_record_bytes
        (iris_chain_to_new_batch sampleSysBusy 0) 0 4) 0).bos
        ((sampleSysBusy.batches 0).bo)).writes
      = (sampleSysBusy.bos ((sampleSysBusy.batches 0).bo)).writes ++
        [((sampleSysBusy.batches 0).bytes_used, 4, MI_BATCH_BUFFER_START),
         ((sampleSysBusy.batches 0).bytes_used + 4, 8,
          ((iris_chain_to_new_batch sampleSysBusy 0).bos
            (((iris_chain_to_new_batch sampleSysBusy 0).batches
              0).bo)).gtt_offset)] :=
  have h := C7_chaining sampleSysBusy 0 4 (by decide) (by decide) (by decide)
    (by decide) (by decide)
  ⟨by decide, h.1, h.2.1, h.2.2⟩

/-- C1: the cross-batch hazard matrix.  When `use_bo` registers a BO
not yet tracked by batch A (and distinct from A's own command buffer
and the workaround BO) while the sibling batch B holds an entry for
it, then: if B's entry carries `EXEC_OBJECT_WRITE` or A's request is
writable, B is flushed (a submission with B's context id is issued and
B is left reset) and a wait on B's freshly promoted completion fence
is recorded in A; when both sides only read, B is untouched, nothing
is submitted, and no wait fence is recorded. -/
theorem C1_hazard_matrix (s : Sys) (bi : Fin 2) (boId : Nat)
    (writable : Bool) (oidx sp : Nat) (rest : List Nat)
    (hA : find_validation_entry s.bos (s.batches bi) boId = none)
    (hown : boId ≠ (s.batches bi).bo)
    (hwa : boId ≠ s.screen.workaround_bo)
    (hB : find_validation_entry s.bos (s.batches (otherBatch bi)) boId
        = some oidx)
    (hBne : ¬ ((s.batches (otherBatch bi)).bytes_used = 0))
    (hrets : s.submit_rets = [])
    (hnohw : s.screen.no_hw = false)
    (hsp : (s.batches (otherBatch bi)).syncpts = sp :: rest) :
    ((((s.batches (otherBatch bi)).validation_list.getD oidx
        default).flags &&& EXEC_OBJECT_WRITE ≠ 0 ∨ writable = true) →
      (∃ e : Execbuf,
        (iris_use_pinned_bo s bi boId writable).submissions
          = s.submissions ++ [e] ∧
        e.ctx_id = (s.batches (otherBatch bi)).hw_ctx_id) ∧
      ((iris_use_pinned_bo s bi boId writable).batches
          (otherBatch bi)).bytes_used = 0 ∧
      ((iris_use_pinned_bo s bi boId writable).batches bi).exec_fences
        = (s.batches bi).exec_fences ++ [⟨sp, I915_EXEC_FENCE_WAIT⟩]) ∧
    (¬ (((s.batches (otherBatch bi)).validation_list.getD oidx
        default).flags &&& EXEC_OBJECT_WRITE ≠ 0 ∨ writable = true) →
      (iris_use_pinned_bo s bi boId writable).batches (otherBatch bi)
        = s.batches (otherBatch bi) ∧
      (iris_use_pinned_bo s bi boId writable).submissions
        = s.submissions ∧
      ((iris_use_pinned_bo s bi boId writable).batches bi).exec_fences
        = (s.batches bi).exec_fences) := by
  have heff := iris_batch_flush_effect s (otherBatch bi) sp rest hBne
    hrets hsp
  have hfin := iris_finish_batch_batch_parts s (otherBatch bi)
  constructor
  · intro hcond
    have heq : iris_use_pinned_bo s bi boId writable
        = add_bo_entry
            (iris_batch_add_syncpt (iris_batch_flush s (otherBatch bi)) bi
              ((((iris_batch_flush s (otherBatch bi)).batches
                (otherBatch bi)).last_syncpt).getD 0) I915_EXEC_FENCE_WAIT)
            bi boId writable := by
      simp only [iris_use_pinned_bo, hA, hB, if_neg hwa]
      rw [if_pos (hown : _ ≠ _), if_pos hcond]
    rw [heq]
    have hspw : (((iris_batch_flush s (otherBatch bi)).batches
        (otherBatch bi)).last_syncpt).getD 0 = sp := by
      rw [heff.1]
      rfl
    refine ⟨?_, ?_, ?_⟩
    · refine ⟨submit_execbuf ((iris_finish_batch s (otherBatch bi)).batches
        (otherBatch bi)), ?_, ?_⟩
      · rw [add_bo_entry_submissions, iris_batch_add_syncpt_submissions,
            iris_batch_flush_submission s (otherBatch bi) hBne hrets hnohw]
      · show ((iris_finish_batch s (otherBatch bi)).batches
            (otherBatch bi)).hw_ctx_id
          = (s.batches (otherBatch bi)).hw_ctx_id
        exact hfin.2.2.1
    · rw [add_bo_entry_batches_ne _ _ _ _ _ (otherBatch_ne bi),
          iris_batch_add_syncpt_batches_ne _ _ _ _ _ (otherBatch_ne bi)]
      exact heff.2.1
    · simp only [add_bo_entry_batches_same,
                 iris_batch_add_syncpt_batches_same]
      rw [iris_batch_flush_batches_ne _ _ _ (ne_otherBatch bi), hspw]
  · intro hcond
    have heq : iris_use_pinned_bo s bi boId writable
        = add_bo_entry s bi boId writable := by
      simp only [iris_use_pinned_bo, hA, hB, if_neg hwa]
      rw [if_pos (hown : _ ≠ _), if_neg hcond]
    rw [heq]
    refine ⟨add_bo_entry_batches_ne _ _ _ _ _ (otherBatch_ne bi),
            add_bo_entry_submissions _ _ _ _, ?_⟩
    simp only [add_bo_entry_batches_same]

theorem dedup_step (t : Sys) (bi : Fin 2) (boId waId : Nat)
    (pre : List Nat) (V : List ExecObject2) (hnd off kf : Nat)
    (acc w : Bool) (hnm : boId ∉ pre) (hwa : boId ≠ waId)
    (hinv : DedupInv t bi boId waId pre V hnd off kf acc) :
    DedupInv (iris_use_pinned_bo t bi boId w) bi boId waId pre V hnd off
      kf (acc || w) := by
  obtain ⟨he, hv, hlen, hscr⟩ := hinv
  have hfind : find_validation_entry t.bos (t.batches bi) boId
      = some pre.length :=
    find_validation_entry_append _ _ _ _ hnm he
  have hwa' : ¬ (boId = t.screen.workaround_bo) := by
    rw [hscr]
    exact hwa
  rw [use_bo_found t bi boId w pre.length hfind, if_neg hwa']
  refine ⟨?_, ?_, hlen, hscr⟩
  · show (updB t.batches bi
        (mark_entry_writable (t.batches bi) pre.length w) bi).exec_bos
      = pre ++ [boId]
    rw [updB_same, mark_entry_writable_exec_bos, he]
  · show (updB t.batches bi
        (mark_entry_writable (t.batches bi) pre.length w)
        bi).validation_list = _
    rw [updB_same]
    cases w with
    | false =>
        rw [mark_entry_writable_false, hv]
        simp
    | true =>
        simp only [mark_entry_writable, if_true]
        show modifyIdx (t.batches bi).validation_list pre.length _ = _
        rw [hv, ← hlen, modifyIdx_append]
        have hflags : ((kf ||| (if acc then EXEC_OBJECT_WRITE else 0)) |||
            EXEC_OBJECT_WRITE)
            = kf ||| (if (acc || true) then EXEC_OBJECT_WRITE else 0) := by
          cases acc <;> simp [Nat.or_assoc]
        simp only [hflags]

theorem dedup_fold (bi : Fin 2) (boId waId : Nat) (pre : List Nat)
    (V : List ExecObject2) (hnd off kf : Nat)
    (hnm : boId ∉ pre) (hwa : boId ≠ waId) :
    ∀ (ws : List Bool) (t : Sys) (acc : Bool),
      DedupInv t bi boId waId pre V hnd off kf acc →
      DedupInv (ws.foldl (fun u v => iris_use_pinned_bo u bi boId v) t)
        bi boId waId pre V hnd off kf (acc || ws.any id) := by
  intro ws
  induction ws with
  | nil =>
      intro t acc h
      simpa using h
  | cons v ws' ih =>
      intro t acc h
      rw [List.foldl_cons]
      have h2 := ih _ _ (dedup_step t bi boId waId pre V hnd off kf acc v
        hnm hwa h)
      have hacc : (acc || (v :: ws').any id) = ((acc || v) || ws'.any id) := by
        cases acc <;> cases v <;> simp
      rw [hacc]
      exact h2

/-- C2: for every non-empty sequence of `use_bo(batch, bo, wᵢ)` calls
on the same BO within one generation (the BO untracked at the start,
distinct from the batch's command buffer's fresh id and the workaround
BO, with write-free kernel flags), the validation list ends up with
exactly one entry for that BO, and that entry's `EXEC_OBJECT_WRITE`
bit equals the logical OR of all the requested write flags. -/
theorem C2_dedup_invariant (s : Sys) (bi : Fin 2) (boId : Nat)
    (w : Bool) (ws : List Bool)
    (hnew : find_validation_entry s.bos (s.batches bi) boId = none)
    (hwa : boId ≠ s.screen.workaround_bo)
    (hfresh : boId ≠ s.next_bo)
    (hkf : (s.bos boId).kflags &&& EXEC_OBJECT_WRITE = 0)
    (hlen : (s.batches bi).validation_list.length
        = (s.batches bi).exec_bos.length) :
    ((((w :: ws).foldl (fun u v => iris_use_pinned_bo u bi boId v)
        s).batches bi).exec_bos.count boId = 1) ∧
    (∃ i e,
      find_validation_entry
        ((w :: ws).foldl (fun u v => iris_use_pinned_bo u bi boId v) s).bos
        (((w :: ws).foldl (fun u v => iris_use_pinned_bo u bi boId v)
          s).batches bi) boId = some i ∧
      (((w :: ws).foldl (fun u v => iris_use_pinned_bo u bi boId v)
        s).batches bi).validation_list[i]? = some e ∧
      e.flags &&& EXEC_OBJECT_WRITE
        = (if (w :: ws).any id then EXEC_OBJECT_WRITE else 0)) := by
  have hnm : boId ∉ (s.batches bi).exec_bos :=
    find_validation_entry_none_not_mem _ _ _ hnew
  obtain ⟨s1, heq, he, hv, hsz, hap, hscr, hbos⟩ :=
    use_bo_none_split s bi boId w hnew
  obtain ⟨hk, hh, ho, -⟩ := hbos hfresh
  have hbase : DedupInv (iris_use_pinned_bo s bi boId w) bi boId
      s.screen.workaround_bo (s.batches bi).exec_bos
      (s.batches bi).validation_list (s.bos boId).gem_handle
      (s.bos boId).gtt_offset (s.bos boId).kflags w := by
    rw [heq, if_neg hwa]
    refine ⟨?_, ?_, hlen, ?_⟩
    · rw [add_bo_entry_batches_same]
      show (s1.batches bi).exec_bos ++ [boId] = _
      rw [he]
    · rw [add_bo_entry_batches_same]
      show (s1.batches bi).validation_list ++
          [{ handle := (s1.bos boId).gem_handle,
             offset := (s1.bos boId).gtt_offset,
             flags := (s1.bos boId).kflags |||
               (if w then EXEC_OBJECT_WRITE else 0) }] = _
      rw [hv, hk, hh, ho]
    · rw [add_bo_entry_screen, hscr]
  have hfin := dedup_fold bi boId s.screen.workaround_bo
      (s.batches bi).exec_bos (s.batches bi).validation_list
      (s.bos boId).gem_handle (s.bos boId).gtt_offset
      (s.bos boId).kflags hnm hwa ws _ w hbase
  rw [List.foldl_cons]
  obtain ⟨he', hv', hlen', -⟩ := hfin
  have hacc : (w :: ws).any id = (w || ws.any id) := by simp
  constructor
  · rw [he', List.count_append, List.count_eq_zero.mpr hnm]
    simp
  · refine ⟨(s.batches bi).exec_bos.length,
      { handle := (s.bos boId).gem_handle,
        offset := (s.bos boId).gtt_offset,
        flags := (s.bos boId).kflags |||
          (if (w || ws.any id) then EXEC_OBJECT_WRITE else 0) },
      find_validation_entry_append _ _ _ _ hnm he', ?_, ?_⟩
    · rw [hv', List.getElem?_append,
          if_neg (by omega : ¬ ((s.batches bi).exec_bos.length
            < (s.batches bi).validation_list.length))]
      have h0 : (s.batches bi).exec_bos.length
          - (s.batches bi).validation_list.length = 0 := by omega
      rw [h0]
      rfl
    · show ((s.bos boId).kflags |||
          (if (w || ws.any id) then EXEC_OBJECT_WRITE else 0)) &&&
          EXEC_OBJECT_WRITE
        = (if (w :: ws).any id then EXEC_OBJECT_WRITE else 0)
      rw [hacc]
      cases hb : (w || ws.any id) with
      | false =>
          simp only [if_neg Bool.false_ne_true]
          rw [Nat.or_zero]
          exact hkf
      | true =>
          simp only [if_pos rfl]
          rw [Nat.and_distrib_right, hkf]
          simp

theorem C1_hazard_matrix_witness :
    ((sampleSysHazard.batches (otherBatch 0)).validation_list.getD 1
        default).flags &&& EXEC_OBJECT_WRITE ≠ 0 ∧
    (∃ e : Execbuf,
       (iris_use_pinned_bo sampleSysHazard 0 2 false).submissions
         = sampleSysHazard.submissions ++ [e] ∧
       e.ctx_id = (sampleSysHazard.batches (otherBatch 0)).hw_ctx_id) ∧
    ((iris_use_pinned_bo sampleSysHazard 0 2 false).batches
        (otherBatch 0)).bytes_used = 0 ∧
    ((iris_use_pinned_bo sampleSysHazard 0 2 false).batches 0).exec_fences
      = (sampleSysHazard.batches 0).exec_fences ++
        [⟨1, I915_EXEC_FENCE_WAIT⟩] :=
  have h := (C1_hazard_matrix sampleSysHazard 0 2 false 1 1 []
    (by decide) (by decide) (by decide) (by decide) (by decide) (by decide)
    (by decide) (by decide)).1 (Or.inl (by decide))
  ⟨by decide, h.1, h.2.1, h.2.2⟩

theorem C2_dedup_invariant_witness :
    find_validation_entry sampleSys.bos (sampleSys.batches 0) 2 = none ∧
    ((([true, false].foldl
        (fun u v => iris_use_pinned_bo u 0 2 v) sampleSys).batches
        0).exec_bos.count 2 = 1) ∧
    (∃ i e,
      find_validation_entry
        ([true, false].foldl (fun u v => iris_use_pinned_bo u 0 2 v)
          sampleSys).bos
        (([true, false].foldl (fun u v => iris_use_pinned_bo u 0 2 v)
          sampleSys).batches 0) 2 = some i ∧
      (([true, false].foldl (fun u v => iris_use_pinned_bo u 0 2 v)
        sampleSys).batches 0).validation_list[i]? = some e ∧
      e.flags &&& EXEC_OBJECT_WRITE
        = (if [true, false].any id then EXEC_OBJECT_WRITE else 0)) :=
  have h := C2_dedup_invariant sampleSys 0 2 true [false]
    (by decide) (by decide) (by decide) (by decide) (by decide)
  ⟨by decide, h.1, h.2⟩

/-- Witness for C5: on the concrete lost-device system the flush
recovers (no abort), records a guilty-context reset event and installs
the freshly cloned hardware context. -/
theorem C5_device_loss_handling_witness :
    (iris_batch_flush sampleSysLost 0).aborted = false ∧
    (iris_batch_flush sampleSysLost 0).reset_events
      = sampleSysLost.reset_events ++ [PIPE_GUILTY_CONTEXT_RESET] ∧
    ((iris_batch_flush sampleSysLost 0).batches 0).hw_ctx_id
      = sampleSysLost.next_ctx :=
  (C5_device_loss_handling sampleSysLost 0 (-eio_code)
      (by decide) rfl rfl rfl rfl).1 rfl (by decide)
